import Mathlib

/-!
Verification of the flat-file typed graph store (schema validator, query
lexer/parser/evaluator, bounded graph traversal) against its specification.

The JavaScript sources are shallowly embedded: JS objects become structures
or association lists (`List (String × _)`, first binding wins on lookup, as
`Map.get`/property lookup do once the object is built), JS `undefined` is
`Option.none`, JS `null` is a dedicated `Value.vnull` (or an inner `none`
where a map value can be null), and functions that can raise a JS
`TypeError` return `Except String _`.  JS strings are Lean strings; the
string primitives used by the source (`trim`, `lastIndexOf`, `endsWith`,
`split(':')[0]`, `toLowerCase`, `includes`, `startsWith`) are defined below
on the underlying character lists, matching the ASCII behaviour of the
engine.  `new Date(s)` validity is engine defined, so it is threaded through
as an oracle `dp : String → Bool`.
-/

namespace Ontology

/-- JS whitespace test (`/\s/`) for the characters that occur in this data. -/
def isWhite (c : Char) : Bool := c = ' ' ∨ c = '\t' ∨ c = '\n' ∨ c = '\r'

/-- JS `String.prototype.trim`. -/
def jsTrim (s : String) : String :=
  String.mk (((s.data.dropWhile isWhite).reverse.dropWhile isWhite).reverse)

/-- JS `String.prototype.toLowerCase` (ASCII). -/
def toLowerStr (s : String) : String := String.mk (s.data.map Char.toLower)

/-- JS `String.prototype.toUpperCase` (ASCII). -/
def toUpperStr (s : String) : String := String.mk (s.data.map Char.toUpper)

/-- JS `a.endsWith(b)`. -/
def jsEndsWith (a b : String) : Bool := b.data.isSuffixOf a.data

/-- Substring containment on character lists: does `needle` occur
contiguously inside `hay`? -/
def listContainsSeq : List Char → List Char → Bool
  | [], needle => needle.isEmpty
  | c :: rest, needle => needle.isPrefixOf (c :: rest) || listContainsSeq rest needle

/-- JS `a.includes(b)` (substring containment). -/
def jsIncludes (a b : String) : Bool := listContainsSeq a.data b.data

/-- JS `s.split(':')[0]`: the longest colon-free leading segment. -/
def splitHeadColon (s : String) : String :=
  String.mk (s.data.takeWhile (fun c => ¬ (c = ':')))

/-- Lookup in a JS object / `Map` built without duplicate keys; the first
binding wins, mirroring property access on the finished object. -/
def jsGet {α : Type} (m : List (String × α)) (k : String) : Option α :=
  (m.find? (fun p => p.1 = k)).map (fun p => p.2)

/-- Interpolation of a possibly-`undefined` JS string into a template
literal (`undefined` prints as `"undefined"`). -/
def optStr (o : Option String) : String :=
  match o with
  | some s => s
  | none => "undefined"

/-- Interpolation (or property-key coercion) of a possibly-`null` JS string
(`null` prints as `"null"`). -/
def optStrNull (o : Option String) : String :=
  match o with
  | some s => s
  | none => "null"

/-- JS `o || d` for a possibly-absent string (both `undefined` and the empty
string are falsy). -/
def jsOrDefault (o : Option String) (d : String) : String :=
  match o with
  | some s => if s = "" then d else s
  | none => d

/-- Truthiness of a possibly-absent string (`undefined` and `""` are falsy). -/
def truthyStr : Option String → Bool
  | some s => s ≠ ""
  | none => false

/-! ## Graph traversal (`src/cli/commands/graph.js`) -/

/-- One output row of `walkGraph`. -/
structure WalkRow where
  id : String
  relation : String
  target : String
  depth : Nat
deriving DecidableEq, Repr

/-- The outgoing-edges map built by `buildOutgoingEdges`:
from-id ↦ list of `{relation, target}` in insertion order. -/
abbrev EdgeMap : Type := List (String × List (String × String))

/-- JS `edges.get(id) || []`. -/
def edgesGet (m : EdgeMap) (k : String) : List (String × String) :=
  match jsGet m k with
  | some l => l
  | none => []

/-- Total number of edge records in the map, used as a fuel bound: the BFS
dequeues at most one start node plus one enqueue per edge record. -/
def totalEdges (m : EdgeMap) : Nat :=
  ((m.map (fun p => p.2.length)).sum)

/-- The `while (queue.length > 0)` loop of `walkGraph`.  `fuel` only bounds
the number of iterations; `walkGraph` supplies enough fuel that the bound is
never reached. -/
def walkAux (edges : EdgeMap) (maxDepth : Nat) :
    Nat → List (String × Nat) → List String → List WalkRow → List WalkRow
  | _, [], _, rows => rows
  | 0, _ :: _, _, rows => rows
  | fuel + 1, (id, depth) :: queue, visited, rows =>
    if id ∈ visited ∨ depth > maxDepth then
      walkAux edges maxDepth fuel queue visited rows
    else
      let visited2 := id :: visited
      let nodeEdges := edgesGet edges id
      let rows2 := rows ++ nodeEdges.map (fun e => ⟨id, e.1, e.2, depth⟩)
      let queue2 := queue ++ nodeEdges.filterMap (fun e =>
        if depth + 1 ≤ maxDepth ∧ ¬ (e.2 ∈ visited2) then some (e.2, depth + 1) else none)
      walkAux edges maxDepth fuel queue2 visited2 rows2

/-- `walkGraph(startId, edges, maxDepth)`: bounded breadth-first walk over
outgoing edges.  A node is marked visited when dequeued; all its outgoing
edges are emitted at its depth; targets are enqueued only when
`depth + 1 <= maxDepth` and not yet visited. -/
def walkGraph (startId : String) (edges : EdgeMap) (maxDepth : Nat) : List WalkRow :=
  walkAux edges maxDepth (totalEdges edges + 1) [(startId, 0)] [] []

/-- An entry delivering edges for `k` contributes its length to `totalEdges`. -/
theorem length_le_totalEdges (m : EdgeMap) (k : String) :
    (edgesGet m k).length ≤ totalEdges m := by
  unfold edgesGet jsGet
  cases hf : m.find? (fun p => p.1 = k) with
  | none => simp
  | some p =>
    have hmem : p ∈ m := List.mem_of_find?_eq_some hf
    simp only [Option.map_some']
    have : p.2.length ∈ m.map (fun q => q.2.length) := List.mem_map_of_mem _ hmem
    exact List.single_le_sum (fun _ _ => Nat.zero_le _) _ this

/-- C3: with a single outgoing edge `A --R--> B`, `walkGraph(A, edges, 0)`
returns exactly the one row `{id: A, relation: R, target: B, depth: 0}`
(edges of a dequeued node are emitted at its depth even when that depth
equals `maxDepth`); and with `maxDepth = 1` and an additional edge
`B --S--> A`, the result is exactly those two rows, the `B`→`A` row at
depth 1, with no depth-2 re-expansion of `A` because `A` was marked visited
when first dequeued. -/
theorem walkGraph_maxDepth_rows (A R B S : String) (edges1 edges2 : EdgeMap)
    (h1 : edgesGet edges1 A = [(R, B)])
    (h2 : edgesGet edges2 A = [(R, B)])
    (h3 : edgesGet edges2 B = [(S, A)])
    (hAB : A ≠ B) :
    walkGraph A edges1 0 = [⟨A, R, B, 0⟩] ∧
    walkGraph A edges2 1 = [⟨A, R, B, 0⟩, ⟨B, S, A, 1⟩] := by
  have hBA : ¬ (B = A) := fun h => hAB h.symm
  constructor
  · unfold walkGraph
    rw [show totalEdges edges1 + 1 = totalEdges edges1 + 1 from rfl]
    simp [walkAux, h1]
  · unfold walkGraph
    obtain ⟨k, hk⟩ : ∃ k, totalEdges edges2 = k + 1 := by
      have hle : (edgesGet edges2 A).length ≤ totalEdges edges2 :=
        length_le_totalEdges edges2 A
      rw [h2] at hle
      simp only [List.length_singleton] at hle
      exact ⟨totalEdges edges2 - 1, by omega⟩
    rw [hk]
    simp [walkAux, h2, h3, hBA]

/-- Witness for C3 at the concrete two-node graph `A --R--> B`,
`B --S--> A`. -/
theorem walkGraph_maxDepth_rows_witness :
    walkGraph "A" [("A", [("R", "B")])] 0 = [⟨"A", "R", "B", 0⟩] ∧
    walkGraph "A" [("A", [("R", "B")]), ("B", [("S", "A")])] 1 =
      [⟨"A", "R", "B", 0⟩, ⟨"B", "S", "A", 1⟩] :=
  walkGraph_maxDepth_rows "A" "R" "B" "S"
    [("A", [("R", "B")])] [("A", [("R", "B")]), ("B", [("S", "A")])]
    (by decide) (by decide) (by decide) (by decide)

/-! ## Query lexer (`src/query/lexer.js`, the token generation consumed by
the shipped parser: `VALUE` / `QUOTED_VALUE` words, `COLON`, parens,
`AND`/`OR`/`NOT` keywords, terminating `EOF`) -/

/-- A lexer token. -/
structure Token where
  type : String
  value : String
  position : Nat
deriving DecidableEq, Repr

/-- The reserved keywords of the query language. -/
def KEYWORDS : List String := ["AND", "OR", "NOT"]

/-- A character that `readWord` keeps consuming (`/[^\s:()"]/`). -/
def wordChar (c : Char) : Bool := ¬ (isWhite c ∨ c = ':' ∨ c = '(' ∨ c = ')' ∨ c = '"')

/-- The loop of `readQuotedString` after the opening quote `q` has been
consumed: returns the token value, the number of further characters
consumed (closing quote included when present), and the rest of the
input. -/
def readQuotedAux (q : Char) : List Char → List Char × Nat × List Char
  | [] => ([], 0, [])
  | c :: rest =>
    if c = q then ([], 1, rest)
    else
      match rest with
      | c2 :: rest2 =>
        if c = '\\' ∧ c2 = q then
          let p := readQuotedAux q rest2
          (c2 :: p.1, p.2.1 + 2, p.2.2)
        else
          let p := readQuotedAux q (c2 :: rest2)
          (c :: p.1, p.2.1 + 1, p.2.2)
      | [] => ([c], 1, [])

/-- The tokenizer loop (`Lexer.tokenize`), recursing over the remaining
characters with the current position.  In the word branch the head
character always satisfies `wordChar` (every non-word character was handled
by an earlier branch), so consuming `c` explicitly and then
`takeWhile`/`dropWhile` on the rest is the source's `readWord`.  Every
iteration consumes at least one character, so the fuel `tokenize` supplies
is never exhausted. -/
def tokenizeAux : Nat → Nat → List Char → List Token
  | _, pos, [] => [⟨"EOF", "", pos⟩]
  | 0, pos, _ => [⟨"EOF", "", pos⟩]
  | fuel + 1, pos, c :: rest =>
    if isWhite c then tokenizeAux fuel (pos + 1) rest
    else if c = ':' then ⟨"COLON", ":", pos⟩ :: tokenizeAux fuel (pos + 1) rest
    else if c = '(' then ⟨"LPAREN", "(", pos⟩ :: tokenizeAux fuel (pos + 1) rest
    else if c = ')' then ⟨"RPAREN", ")", pos⟩ :: tokenizeAux fuel (pos + 1) rest
    else if c = '"' ∨ c = '\'' then
      let p := readQuotedAux c rest
      ⟨"QUOTED_VALUE", String.mk p.1, pos⟩ :: tokenizeAux fuel (pos + 1 + p.2.1) p.2.2
    else
      let w := c :: rest.takeWhile wordChar
      let t : Token :=
        if KEYWORDS.contains (toUpperStr (String.mk w)) then
          ⟨toUpperStr (String.mk w), String.mk w, pos⟩
        else ⟨"VALUE", String.mk w, pos⟩
      t :: tokenizeAux fuel (pos + w.length) (rest.dropWhile wordChar)

/-- `tokenize(query)`. -/
def tokenize (s : String) : List Token := tokenizeAux (s.data.length + 1) 0 s.data

/-! ## Query parser (`src/query/parser.js`) and evaluator AST -/

/-- Every AST node kind that occurs in the query engine: the boolean
combinators, the `MATCH` leaves produced by the shipped parser, and the
`CLASS_MATCH` / `RELATION_MATCH` leaves the evaluator understands. -/
inductive ASTNode where
  | and (left right : ASTNode)
  | or (left right : ASTNode)
  | not (operand : ASTNode)
  | matchN (field : Option String) (value : String) (matchType : String)
  | classMatch (id className property value : Option String)
  | relationMatch (fromId fromClass relationType qualifier value : Option String)
deriving DecidableEq, Repr

/-- The `type` tag a node carries in JS. -/
def nodeType : ASTNode → String
  | .and _ _ => "AND"
  | .or _ _ => "OR"
  | .not _ => "NOT"
  | .matchN _ _ _ => "MATCH"
  | .classMatch _ _ _ _ => "CLASS_MATCH"
  | .relationMatch _ _ _ _ _ => "RELATION_MATCH"

/-- `hasWildcard(value)`. -/
def hasWildcard (v : String) : Bool := v.data.contains '*' || v.data.contains '?'

/-- `Parser.current()`: the token at the cursor (token streams end with
`EOF`, which the cursor never moves past). -/
def curTok : List Token → Token
  | [] => ⟨"EOF", "", 0⟩
  | t :: _ => t

/-- `Parser.peek()?.type`: the type of the token after the cursor, when any. -/
def peekType : List Token → Option String
  | [] => none
  | [_] => none
  | _ :: t :: _ => some t.type

/-- `Parser.advance()`: move past the current token unless it is `EOF`. -/
def advTok (ts : List Token) : List Token :=
  if (curTok ts).type = "EOF" then ts else ts.tail

/-- `Parser.parseMatch()`: a `field COLON value` pair or a bare value. -/
def parseMatch (ts : List Token) : Except String (ASTNode × List Token) :=
  let token := curTok ts
  if (token.type = "VALUE" ∨ token.type = "QUOTED_VALUE") ∧ peekType ts = some "COLON" then
    let ts1 := advTok ts
    let ts2 := advTok ts1
    let valueToken := curTok ts2
    let ts3 := advTok ts2
    pure (ASTNode.matchN (some token.value) valueToken.value
      (if hasWildcard valueToken.value then "wildcard" else "exact"), ts3)
  else if token.type = "VALUE" ∨ token.type = "QUOTED_VALUE" then
    pure (ASTNode.matchN none token.value
      (if hasWildcard token.value then "wildcard" else "exact"), advTok ts)
  else
    Except.error ("Unexpected token '" ++ token.value ++ "' at position " ++
      toString token.position)

mutual

/-- `Parser.parseExpression()`: a term followed by `(OR term)*`.  The fuel
argument only bounds recursion depth; `parse` supplies enough for any
stream. -/
def parseExpression : Nat → List Token → Except String (ASTNode × List Token)
  | 0, _ => Except.error "out of fuel"
  | fuel + 1, ts => do
    let r ← parseTerm fuel ts
    parseOrRest fuel r.1 r.2

/-- The `while (this.match('OR'))` loop of `parseExpression`. -/
def parseOrRest : Nat → ASTNode → List Token → Except String (ASTNode × List Token)
  | 0, _, _ => Except.error "out of fuel"
  | fuel + 1, left, ts =>
    if (curTok ts).type = "OR" then do
      let r ← parseTerm fuel (advTok ts)
      parseOrRest fuel (ASTNode.or left r.1) r.2
    else pure (left, ts)

/-- `Parser.parseTerm()`: a factor followed by `(AND factor)*`. -/
def parseTerm : Nat → List Token → Except String (ASTNode × List Token)
  | 0, _ => Except.error "out of fuel"
  | fuel + 1, ts => do
    let r ← parseFactor fuel ts
    parseAndRest fuel r.1 r.2

/-- The `while (this.match('AND'))` loop of `parseTerm`. -/
def parseAndRest : Nat → ASTNode → List Token → Except String (ASTNode × List Token)
  | 0, _, _ => Except.error "out of fuel"
  | fuel + 1, left, ts =>
    if (curTok ts).type = "AND" then do
      let r ← parseFactor fuel (advTok ts)
      parseAndRest fuel (ASTNode.and left r.1) r.2
    else pure (left, ts)

/-- `Parser.parseFactor()`: `NOT factor`, a parenthesised expression, or a
match. -/
def parseFactor : Nat → List Token → Except String (ASTNode × List Token)
  | 0, _ => Except.error "out of fuel"
  | fuel + 1, ts =>
    if (curTok ts).type = "NOT" then do
      let r ← parseFactor fuel (advTok ts)
      pure (ASTNode.not r.1, r.2)
    else if (curTok ts).type = "LPAREN" then do
      let r ← parseExpression fuel (advTok ts)
      if (curTok r.2).type = "RPAREN" then
        pure (r.1, advTok r.2)
      else
        Except.error ("Expected closing parenthesis at position " ++
          toString (curTok r.2).position)
    else parseMatch ts

end

/-- `Parser.parse()` / the exported `parse(tokens)`: rejects an empty
stream, parses one expression, rejects trailing tokens. -/
def parse (ts : List Token) : Except String ASTNode :=
  if (curTok ts).type = "EOF" then Except.error "Empty query"
  else do
    let r ← parseExpression (3 * ts.length + 9) ts
    if (curTok r.2).type = "EOF" then pure r.1
    else
      Except.error ("Unexpected token '" ++ (curTok r.2).value ++ "' at position " ++
        toString (curTok r.2).position)

/-- C8: the token stream of `"NOT a AND (b OR c)"` parses to
`AND(NOT(a), OR(b, c))` — `NOT` binds tighter than `AND`, which binds
tighter than `OR`, and parentheses group a sub-expression. -/
theorem parse_precedence_not_and_or :
    tokenize "NOT a AND (b OR c)" =
      [⟨"NOT", "NOT", 0⟩, ⟨"VALUE", "a", 4⟩, ⟨"AND", "AND", 6⟩, ⟨"LPAREN", "(", 10⟩,
       ⟨"VALUE", "b", 11⟩, ⟨"OR", "OR", 13⟩, ⟨"VALUE", "c", 16⟩, ⟨"RPAREN", ")", 17⟩,
       ⟨"EOF", "", 18⟩] ∧
    parse (tokenize "NOT a AND (b OR c)") =
      Except.ok (ASTNode.and (ASTNode.not (ASTNode.matchN none "a" "exact"))
        (ASTNode.or (ASTNode.matchN none "b" "exact") (ASTNode.matchN none "c" "exact"))) := by
  constructor
  · rfl
  · rfl

/-! ## JS values -/

/-- A JS runtime value as it occurs in loaded YAML data: strings, booleans,
numbers, native `Date` objects, `null`, arrays, and other plain objects.
`undefined` is represented as `Option.none` at use sites. -/
inductive Value where
  | vstr (s : String)
  | vbool (b : Bool)
  | vnum (n : Int)
  | vdate
  | vnull
  | varr (elems : List Value)
  | vobj
deriving Repr

/-- JS `typeof`. -/
def typeofStr : Value → String
  | .vstr _ => "string"
  | .vbool _ => "boolean"
  | .vnum _ => "number"
  | _ => "object"

mutual

/-- JS `String(value)`.  A native `Date` stringifies to an engine-defined
date string, abstracted here as `"[Date]"` (no claim depends on it). -/
def jsToString : Value → String
  | .vstr s => s
  | .vbool b => if b then "true" else "false"
  | .vnum n => toString n
  | .vnull => "null"
  | .vdate => "[Date]"
  | .varr l => jsToStringItems l
  | .vobj => "[object Object]"

/-- JS array stringification: elements joined with commas, `null` elements
printing as the empty string. -/
def jsToStringItems : List Value → String
  | [] => ""
  | [v] => jsToStringItem v
  | v :: rest => jsToStringItem v ++ "," ++ jsToStringItems rest

/-- One array element under JS array stringification. -/
def jsToStringItem : Value → String
  | .vnull => ""
  | v => jsToString v

end

/-! ## Query matchers and evaluator
(`src/query/matchers.js` and the `findMatches` evaluator generation) -/

/-- A class instance as the query evaluator sees it: the raw JS object, an
association list of its keys in insertion order (`_id`, `_class`, `_source`
and the data properties all live at the root for this consumer). -/
abbrev EvalInstance : Type := List (String × Value)

/-- Property access `instance[key]` on an evaluator instance. -/
def instGet (inst : EvalInstance) (k : String) : Option Value := jsGet inst k

/-- Does the key start with an underscore (`key.startsWith('_')`)? -/
def startsUnderscore (s : String) : Bool := s.data.head? = some '_'

/-- `wildcardContains(fieldValue, pattern)`: `null`/`undefined` never match;
otherwise case-insensitive substring containment of the pattern in the
stringified field value. -/
def wildcardContains (fieldValue : Option Value) (pattern : String) : Bool :=
  match fieldValue with
  | none => false
  | some .vnull => false
  | some v => jsIncludes (toLowerStr (jsToString v)) (toLowerStr pattern)

/-- `matchAnyProperty(instance, pattern)`: some non-internal property
matches (internal = key starting with `_` other than `_class`/`_id`). -/
def matchAnyProperty (inst : EvalInstance) (pattern : String) : Bool :=
  inst.any (fun kv =>
    (¬ (startsUnderscore kv.1 ∧ kv.1 ≠ "_class" ∧ kv.1 ≠ "_id")) ∧
      wildcardContains (some kv.2) pattern)

/-- A relation instance (an edge): `_from`, `_relation`, `_to`, the loader
metadata, and any qualifier keys spread onto the same object. -/
structure RelationInstance where
  _from : String
  _relation : String
  _to : String
  _namespace : Option String
  _source : Option String
  quals : List (String × Value)

/-- Property access `rel[key]` on a relation object (the fixed keys shadow
qualifiers of the same name, as in a JS object literal spread last). -/
def relGet (r : RelationInstance) (k : String) : Option Value :=
  if k = "_from" then some (Value.vstr r._from)
  else if k = "_relation" then some (Value.vstr r._relation)
  else if k = "_to" then some (Value.vstr r._to)
  else if k = "_namespace" then r._namespace.map Value.vstr
  else if k = "_source" then r._source.map Value.vstr
  else jsGet r.quals k

/-- JS `key in rel` for a relation object. -/
def relHas (r : RelationInstance) (k : String) : Bool :=
  k = "_from" ∨ k = "_relation" ∨ k = "_to" ∨ k = "_namespace" ∨ k = "_source" ∨
    (jsGet r.quals k).isSome

/-- `evaluateClassMatchBoolean(node, instance)`: optional `_id` and `_class`
equality filters; with no value the match is an existence check; with a
property only that property is tested, else every non-internal property. -/
def evaluateClassMatchBoolean (idq classNameq propertyq valueq : Option String)
    (inst : EvalInstance) : Bool :=
  if (match idq with
      | some nid =>
        (match instGet inst "_id" with
         | some (.vstr s) => decide (s ≠ nid)
         | _ => true)
      | none => false) then false
  else if (match classNameq with
      | some nc =>
        (match instGet inst "_class" with
         | some (.vstr s) => decide (s ≠ nc)
         | _ => true)
      | none => false) then false
  else
    match valueq with
    | none => true
    | some v =>
      match propertyq with
      | some p => wildcardContains (instGet inst p) v
      | none => matchAnyProperty inst v

/-- `evaluateRelationMatchBoolean(node, classInstance, relations, ...)`:
optional from-id/from-class filters, then some outgoing edge must pass the
relation-type, qualifier-existence and qualifier-value (or target-id)
filters. -/
def evaluateRelationMatchBoolean (fromIdq fromClassq relationTypeq qualifierq valueq :
    Option String) (classInstance : EvalInstance) (relations : List RelationInstance) : Bool :=
  if (match fromIdq with
      | some nid =>
        (match instGet classInstance "_id" with
         | some (.vstr s) => decide (s ≠ nid)
         | _ => true)
      | none => false) then false
  else if (match fromClassq with
      | some nc =>
        (match instGet classInstance "_class" with
         | some (.vstr s) => decide (s ≠ nc)
         | _ => true)
      | none => false) then false
  else
    relations.any (fun rel =>
      (match relationTypeq with
       | some rt => rel._relation = rt
       | none => true) &&
      (match qualifierq with
       | some qn =>
         relHas rel qn &&
           (match valueq with
            | some v => wildcardContains (relGet rel qn) v
            | none => true)
       | none =>
         match valueq with
         | some v => wildcardContains (some (Value.vstr rel._to)) v
         | none => true))

/-- `evaluateBoolean(node, classInstance, relations, instancesById)`:
short-circuit boolean evaluation; an unknown node type (in particular the
parser's `MATCH` leaves) throws `Unknown AST node type`. -/
def evaluateBoolean (node : ASTNode) (classInstance : EvalInstance)
    (relations : List RelationInstance) (instancesById : List (Option Value × EvalInstance)) :
    Except String Bool :=
  match node with
  | .and l r => do
    let lb ← evaluateBoolean l classInstance relations instancesById
    if lb then evaluateBoolean r classInstance relations instancesById else pure false
  | .or l r => do
    let lb ← evaluateBoolean l classInstance relations instancesById
    if lb then pure true else evaluateBoolean r classInstance relations instancesById
  | .not o => do
    let b ← evaluateBoolean o classInstance relations instancesById
    pure (!b)
  | .classMatch i c p v => pure (evaluateClassMatchBoolean i c p v classInstance)
  | .relationMatch fi fc rt q v =>
    pure (evaluateRelationMatchBoolean fi fc rt q v classInstance relations)
  | .matchN f v m => Except.error ("Unknown AST node type: " ++ nodeType (.matchN f v m))

/-- One matched property reported in a class search result. -/
structure PropertyMatch where
  property : String
  value : String
  lineNumber : Nat
  matchedText : String

/-- A search result: a class result or a relation result. -/
inductive SearchResult where
  | classR (inst : EvalInstance) (matchList : List PropertyMatch)
  | relationR (relation : RelationInstance) (fromInstance : EvalInstance)
      (toInstance : Option EvalInstance) (matchedQualifier : Option String)
      (matchedValue : Option String)

/-- `findPropertyMatches(node, instance)`: which concrete properties match a
`CLASS_MATCH` node, for reporting. -/
def findPropertyMatches (idq classNameq propertyq valueq : Option String)
    (inst : EvalInstance) : List PropertyMatch :=
  if (match idq with
      | some nid =>
        (match instGet inst "_id" with
         | some (.vstr s) => decide (s ≠ nid)
         | _ => true)
      | none => false) then []
  else if (match classNameq with
      | some nc =>
        (match instGet inst "_class" with
         | some (.vstr s) => decide (s ≠ nc)
         | _ => true)
      | none => false) then []
  else
    match propertyq, valueq with
    | some p, none =>
      match instGet inst p with
      | some .vnull => []
      | some pv => [⟨p, jsToString pv, 0, ""⟩]
      | none => []
    | none, none => []
    | some p, some v =>
      match instGet inst p with
      | some pv => if wildcardContains (some pv) v then [⟨p, jsToString pv, 0, v⟩] else []
      | none => []
    | none, some v =>
      inst.filterMap (fun kv =>
        if ¬ (startsUnderscore kv.1 ∧ kv.1 ≠ "_class" ∧ kv.1 ≠ "_id") ∧
            wildcardContains (some kv.2) v then
          some ⟨kv.1, jsToString kv.2, 0, v⟩
        else none)

/-- `collectClassMatchesRecursive`: walk the AST (skipping `NOT` subtrees)
collecting class results; node kinds outside the switch contribute
nothing. -/
def collectClassMatches (node : ASTNode) (inst : EvalInstance) : List SearchResult :=
  match node with
  | .and l r => collectClassMatches l inst ++ collectClassMatches r inst
  | .or l r => collectClassMatches l inst ++ collectClassMatches r inst
  | .not _ => []
  | .classMatch i c p v =>
    let ms := findPropertyMatches i c p v inst
    if ms.length > 0 then [.classR inst ms] else []
  | _ => []

/-- `findRelationMatches(node, classInstance, relations, instancesById)`. -/
def findRelationMatches (fromIdq fromClassq relationTypeq qualifierq valueq : Option String)
    (classInstance : EvalInstance) (relations : List RelationInstance)
    (instancesById : List (Option Value × EvalInstance)) : List SearchResult :=
  if (match fromIdq with
      | some nid =>
        (match instGet classInstance "_id" with
         | some (.vstr s) => decide (s ≠ nid)
         | _ => true)
      | none => false) then []
  else if (match fromClassq with
      | some nc =>
        (match instGet classInstance "_class" with
         | some (.vstr s) => decide (s ≠ nc)
         | _ => true)
      | none => false) then []
  else
    relations.filterMap (fun rel =>
      if (match relationTypeq with
          | some rt => decide (rel._relation ≠ rt)
          | none => false) then none
      else
        let passAndPayload : Bool × Option String × Option String :=
          match qualifierq with
          | some qn =>
            if relHas rel qn then
              match valueq with
              | some v =>
                if wildcardContains (relGet rel qn) v then
                  (true, some qn, some (match relGet rel qn with
                    | some qv => jsToString qv
                    | none => "undefined"))
                else (false, none, none)
              | none => (true, some qn, none)
            else (false, none, none)
          | none =>
            match valueq with
            | some v =>
              if wildcardContains (some (Value.vstr rel._to)) v then
                (true, none, some rel._to)
              else (false, none, none)
            | none => (true, none, none)
        if passAndPayload.1 then
          some (.relationR rel classInstance
            ((instancesById.find? (fun p => match p.1 with
              | some (.vstr s) => s = rel._to
              | _ => false)).map (fun p => p.2))
            passAndPayload.2.1 passAndPayload.2.2)
        else none)

/-- `collectRelationMatchesRecursive`. -/
def collectRelationMatches (node : ASTNode) (classInstance : EvalInstance)
    (relations : List RelationInstance)
    (instancesById : List (Option Value × EvalInstance)) : List SearchResult :=
  match node with
  | .and l r =>
    collectRelationMatches l classInstance relations instancesById ++
      collectRelationMatches r classInstance relations instancesById
  | .or l r =>
    collectRelationMatches l classInstance relations instancesById ++
      collectRelationMatches r classInstance relations instancesById
  | .not _ => []
  | .relationMatch fi fc rt q v =>
    findRelationMatches fi fc rt q v classInstance relations instancesById
  | _ => []

/-- JS `Map.set` keyed by an arbitrary value (SameValueZero: primitive keys
compare by value, object keys by reference — distinct loaded objects are
never identical, so object keys never collide). -/
def mapKeyEq : Option Value → Option Value → Bool
  | some (.vstr x), some (.vstr y) => x = y
  | some (.vbool x), some (.vbool y) => x = y
  | some (.vnum x), some (.vnum y) => x = y
  | some .vnull, some .vnull => true
  | none, none => true
  | _, _ => false

/-- `Map.set`: overwrite in place when the key is present, else append. -/
def mapSetVal (m : List (Option Value × EvalInstance)) (k : Option Value)
    (v : EvalInstance) : List (Option Value × EvalInstance) :=
  if (m.find? (fun p => mapKeyEq p.1 k)).isSome then
    m.map (fun p => if mapKeyEq p.1 k then (p.1, v) else p)
  else m ++ [(k, v)]

/-- The instance collections handed to the evaluator. -/
structure EvalInstances where
  classes : List EvalInstance
  relations : List RelationInstance

/-- Append a value to the list stored under a key of an insertion-ordered
multimap (`relationsByFrom`, `docsByFile`). -/
def multiAdd {α : Type} (m : List (String × List α)) (k : String) (v : α) :
    List (String × List α) :=
  if (m.find? (fun p => p.1 = k)).isSome then
    m.map (fun p => if p.1 = k then (p.1, p.2 ++ [v]) else p)
  else m ++ [(k, [v])]

/-- `findMatches(ast, instances)`: index the instances, group relations by
`_from`, then for every class instance evaluate the AST and, when it
matches, collect its class and relation results. -/
def findMatches (ast : ASTNode) (instances : EvalInstances) :
    Except String (List SearchResult) :=
  let instancesById := instances.classes.foldl
    (fun m inst => mapSetVal m (instGet inst "_id") inst) []
  let relationsByFrom := instances.relations.foldl
    (fun m rel => multiAdd m rel._from rel) []
  instances.classes.foldlM (fun acc classInstance => do
    let classRelations :=
      match instGet classInstance "_id" with
      | some (.vstr s) =>
        (match jsGet relationsByFrom s with
         | some l => l
         | none => [])
      | _ => []
    let b ← evaluateBoolean ast classInstance classRelations instancesById
    if b then
      pure (acc ++ collectClassMatches ast classInstance ++
        collectRelationMatches ast classInstance classRelations instancesById)
    else pure acc) []

/-- C7: a `classMatch` with `id = "jdoe"` and `className`/`property`/`value`
all null matches exactly the instance whose `_id` is `"jdoe"` regardless of
its properties (existence-only); a `classMatch` with `property = "email"`,
`value = "company"` matches exactly the instances whose `email` property
matches, where all value matching is case-insensitive substring containment
of the pattern in the stringified value — not exact equality and not
glob-wildcard matching. -/
theorem classMatch_contains_semantics :
    (∀ inst : EvalInstance,
      evaluateClassMatchBoolean (some "jdoe") none none none inst = true ↔
        instGet inst "_id" = some (Value.vstr "jdoe")) ∧
    (∀ inst : EvalInstance,
      evaluateClassMatchBoolean none none (some "email") (some "company") inst = true ↔
        ∃ v, instGet inst "email" = some v ∧ wildcardContains (some v) "company" = true) ∧
    (∀ s p : String,
      wildcardContains (some (Value.vstr s)) p =
        listContainsSeq (toLowerStr s).data (toLowerStr p).data) ∧
    wildcardContains (some (Value.vstr "the COMPANY x")) "company" = true ∧
    wildcardContains (some (Value.vstr "compXany")) "company" = false ∧
    wildcardContains (some (Value.vstr "company")) "c*y" = false := by
  refine ⟨?_, ?_, ?_,
    by simp only [wildcardContains, jsToString]; decide,
    by simp only [wildcardContains, jsToString]; decide,
    by simp only [wildcardContains, jsToString]; decide⟩
  · intro inst
    unfold evaluateClassMatchBoolean
    cases h : instGet inst "_id" with
    | none => simp
    | some v =>
      cases v with
      | vstr s =>
        by_cases hs : s = "jdoe"
        · subst hs; simp
        · simp [hs]
      | vbool b => simp
      | vnum n => simp
      | vdate => simp
      | vnull => simp
      | varr l => simp
      | vobj => simp
  · intro inst
    unfold evaluateClassMatchBoolean
    cases h : instGet inst "email" with
    | none => simp [h, wildcardContains]
    | some v => simp [h, wildcardContains]
  · intro s p
    simp [wildcardContains, jsToString, jsIncludes]

/-! ## C10: the tokenize → parse → findMatches pipeline -/

/-- Every leaf of the AST is a `MATCH` node (the only leaf kind the shipped
parser produces). -/
def matchLeavesB : ASTNode → Bool
  | .and l r => matchLeavesB l && matchLeavesB r
  | .or l r => matchLeavesB l && matchLeavesB r
  | .not o => matchLeavesB o
  | .matchN _ _ _ => true
  | .classMatch _ _ _ _ => false
  | .relationMatch _ _ _ _ _ => false

/-- Binding a thrown `Except` propagates the error. -/
theorem except_error_bind {ε α β : Type} (e : ε) (f : α → Except ε β) :
    (Except.error e >>= f) = Except.error e := rfl

/-- On an AST whose leaves are all `MATCH` nodes, boolean evaluation always
reaches its leftmost leaf and throws the unknown-node error. -/
theorem evaluateBoolean_matchLeaves (ast : ASTNode) (h : matchLeavesB ast = true)
    (ci : EvalInstance) (rels : List RelationInstance)
    (idx : List (Option Value × EvalInstance)) :
    evaluateBoolean ast ci rels idx = Except.error "Unknown AST node type: MATCH" := by
  induction ast with
  | and l r ihl ihr =>
    simp only [matchLeavesB, Bool.and_eq_true] at h
    simp [evaluateBoolean, ihl h.1, except_error_bind]
  | or l r ihl ihr =>
    simp only [matchLeavesB, Bool.and_eq_true] at h
    simp [evaluateBoolean, ihl h.1, except_error_bind]
  | not o ih =>
    simp only [matchLeavesB] at h
    simp [evaluateBoolean, ih h, except_error_bind]
  | matchN f v m => simp [evaluateBoolean, nodeType]
  | classMatch i c p v => simp [matchLeavesB] at h
  | relationMatch fi fc rt q v => simp [matchLeavesB] at h

/-- Binding a successful `Except` applies the continuation. -/
theorem except_ok_bind {ε α β : Type} (a : α) (f : α → Except ε β) :
    (Except.ok a >>= f) = f a := rfl

/-- Extract the component equalities of a successful `Except` result that
returns a pair. -/
theorem except_ok_pair {ε α β : Type} {p : α × β} {a : α} {b : β}
    (h : (Except.ok p : Except ε (α × β)) = Except.ok (a, b)) : p.1 = a ∧ p.2 = b := by
  cases p
  injection h with h1
  injection h1 with h2 h3
  exact ⟨h2, h3⟩

/-- `parseMatch` only builds `MATCH` leaves. -/
theorem parseMatch_shape (ts : List Token) (a : ASTNode) (ts2 : List Token)
    (h : parseMatch ts = Except.ok (a, ts2)) : matchLeavesB a = true := by
  simp only [parseMatch] at h
  split at h
  · obtain ⟨h1, -⟩ := except_ok_pair h
    rw [← h1]; rfl
  · split at h
    · obtain ⟨h1, -⟩ := except_ok_pair h
      rw [← h1]; rfl
    · exact absurd h (by simp)

/-- Every AST accepted by any of the parser's productions has only `MATCH`
leaves. -/
theorem parser_shape : ∀ fuel : Nat,
    (∀ ts a ts2, parseExpression fuel ts = Except.ok (a, ts2) → matchLeavesB a = true) ∧
    (∀ left ts a ts2, parseOrRest fuel left ts = Except.ok (a, ts2) →
      matchLeavesB left = true → matchLeavesB a = true) ∧
    (∀ ts a ts2, parseTerm fuel ts = Except.ok (a, ts2) → matchLeavesB a = true) ∧
    (∀ left ts a ts2, parseAndRest fuel left ts = Except.ok (a, ts2) →
      matchLeavesB left = true → matchLeavesB a = true) ∧
    (∀ ts a ts2, parseFactor fuel ts = Except.ok (a, ts2) → matchLeavesB a = true) := by
  intro fuel
  induction fuel with
  | zero =>
    refine ⟨?_, ?_, ?_, ?_, ?_⟩ <;> intros <;>
      simp [parseExpression, parseOrRest, parseTerm, parseAndRest, parseFactor] at *
  | succ fuel ih =>
    obtain ⟨ihE, ihO, ihT, ihA, ihF⟩ := ih
    refine ⟨?_, ?_, ?_, ?_, ?_⟩
    · intro ts a ts2 h
      simp only [parseExpression] at h
      cases ht : parseTerm fuel ts with
      | error e => rw [ht, except_error_bind] at h; exact absurd h (by simp)
      | ok r =>
        rw [ht, except_ok_bind] at h
        exact ihO r.1 r.2 a ts2 h (ihT ts r.1 r.2 ht)
    · intro left ts a ts2 h hleft
      simp only [parseOrRest] at h
      split at h
      · cases ht : parseTerm fuel (advTok ts) with
        | error e => rw [ht, except_error_bind] at h; exact absurd h (by simp)
        | ok r =>
          rw [ht, except_ok_bind] at h
          refine ihO _ r.2 a ts2 h ?_
          have hr := ihT (advTok ts) r.1 r.2 ht
          simp [matchLeavesB, hleft, hr]
      · obtain ⟨h1, -⟩ := except_ok_pair h
        rw [← h1]; exact hleft
    · intro ts a ts2 h
      simp only [parseTerm] at h
      cases ht : parseFactor fuel ts with
      | error e => rw [ht, except_error_bind] at h; exact absurd h (by simp)
      | ok r =>
        rw [ht, except_ok_bind] at h
        exact ihA r.1 r.2 a ts2 h (ihF ts r.1 r.2 ht)
    · intro left ts a ts2 h hleft
      simp only [parseAndRest] at h
      split at h
      · cases ht : parseFactor fuel (advTok ts) with
        | error e => rw [ht, except_error_bind] at h; exact absurd h (by simp)
        | ok r =>
          rw [ht, except_ok_bind] at h
          refine ihA _ r.2 a ts2 h ?_
          have hr := ihF (advTok ts) r.1 r.2 ht
          simp [matchLeavesB, hleft, hr]
      · obtain ⟨h1, -⟩ := except_ok_pair h
        rw [← h1]; exact hleft
    · intro ts a ts2 h
      simp only [parseFactor] at h
      split at h
      · cases ht : parseFactor fuel (advTok ts) with
        | error e => rw [ht, except_error_bind] at h; exact absurd h (by simp)
        | ok r =>
          rw [ht, except_ok_bind] at h
          obtain ⟨h1, -⟩ := except_ok_pair h
          have hr := ihF (advTok ts) r.1 r.2 ht
          rw [← h1]
          simpa [matchLeavesB] using hr
      · split at h
        · cases ht : parseExpression fuel (advTok ts) with
          | error e => rw [ht, except_error_bind] at h; exact absurd h (by simp)
          | ok r =>
            rw [ht, except_ok_bind] at h
            split at h
            · obtain ⟨h1, -⟩ := except_ok_pair h
              rw [← h1]
              exact ihE (advTok ts) r.1 r.2 ht
            · exact absurd h (by simp)
        · exact parseMatch_shape ts a ts2 h

/-- C10: every AST the shipped parser accepts has only `MATCH` leaves,
which is not among the node types the boolean evaluator used by
`findMatches` handles; hence on any non-empty instance list the
tokenize→parse→findMatches pipeline throws `Unknown AST node type: MATCH`
and never succeeds end to end. -/
theorem pipeline_never_succeeds (ts : List Token) (ast : ASTNode)
    (hp : parse ts = Except.ok ast) :
    matchLeavesB ast = true ∧
    ∀ insts : EvalInstances, insts.classes ≠ [] →
      findMatches ast insts = Except.error "Unknown AST node type: MATCH" := by
  have hshape : matchLeavesB ast = true := by
    unfold parse at hp
    split at hp
    · exact absurd hp (by simp)
    · cases ht : parseExpression (3 * ts.length + 9) ts with
      | error e => rw [ht, except_error_bind] at hp; exact absurd hp (by simp)
      | ok r =>
        rw [ht, except_ok_bind] at hp
        split at hp
        · have h1 : r.1 = ast := by
            injection hp
          rw [← h1]
          exact (parser_shape (3 * ts.length + 9)).1 ts r.1 r.2 ht
        · exact absurd hp (by simp)
  refine ⟨hshape, ?_⟩
  intro insts hne
  unfold findMatches
  cases hcl : insts.classes with
  | nil => exact absurd hcl hne
  | cons i rest =>
    rw [List.foldlM_cons]
    simp only [evaluateBoolean_matchLeaves ast hshape, except_error_bind]

/-- Witness for C10: the one-token query `a` parses to a bare `MATCH` leaf,
and `findMatches` on a one-instance list throws the unknown-node error. -/
theorem pipeline_never_succeeds_witness :
    matchLeavesB (ASTNode.matchN none "a" "exact") = true ∧
    findMatches (ASTNode.matchN none "a" "exact")
        ⟨[[("_id", Value.vstr "x")]], []⟩ =
      Except.error "Unknown AST node type: MATCH" := by
  have h := pipeline_never_succeeds [⟨"VALUE", "a", 0⟩, ⟨"EOF", "", 1⟩]
    (ASTNode.matchN none "a" "exact") (by rfl)
  exact ⟨h.1, h.2 ⟨[[("_id", Value.vstr "x")]], []⟩ (by simp)⟩

/-! ## Validator data model (`src/core/validator.js`, `src/core/types.js`)

The loader hands `validate` a fully materialized graph.  Fields that YAML
can set to `null` are modelled with an inner `Option` (so `some none` is a
present-but-null binding); plain absence is the outer `none`. -/

/-- A `ValidationError` record (`severity`, `message`, `source`,
`instance`); the JS `instance` field is called `label` here because
`instance` is a Lean keyword. -/
structure Issue where
  severity : String
  message : String
  source : Option String
  label : String
deriving DecidableEq, Repr

/-- A property definition inside a component (`type`, `required`,
`allowedTypes`, `uiHints`). -/
structure PropDef where
  type : Option String
  required : Bool
  allowedTypes : Option Value
  uiHints : Option Value

/-- A component definition: an ordered property map (possibly absent or
null, and each property definition can itself be null). -/
structure ComponentDef where
  properties : Option (List (String × Option PropDef))

/-- A class definition: local component name ↦ component class name. -/
structure ClassDef where
  components : Option (List (String × Option String))

/-- A cardinality bound: a number, the string `'many'`, or any other
value. -/
inductive CardMaxVal where
  | num (n : Int)
  | many
  | other
deriving DecidableEq, Repr

/-- A declared cardinality: the shorthand string code or a `{min, max}`
object (a non-string non-object declaration behaves like `{}`). -/
inductive CardSpec where
  | code (s : String)
  | obj (minv maxv : Option CardMaxVal)
deriving DecidableEq, Repr

/-- A qualifier declaration on a relation type. -/
structure QualDef where
  type : Option String

/-- A relation type declaration. -/
structure RelationDef where
  domain : Option String
  range : Option String
  cardinality : Option CardSpec
  qualifiers : Option (List (String × Option QualDef))

/-- The schema (T-box): components, classes and relation types, each an
insertion-ordered object whose values YAML can null out. -/
structure Schema where
  components : List (String × Option ComponentDef)
  classes : List (String × Option ClassDef)
  relations : List (String × Option RelationDef)

/-- A loaded class instance.  `rootKeys` is `Object.keys(instance)` — every
key of the raw object in insertion order (the named fields plus any stray
root-level keys). -/
structure ClassInstance where
  _class : Option String
  _id : Option String
  _namespace : Option String
  _source : Option String
  rootKeys : List String
  components : Option (List (String × Option (List (String × Value))))

/-- The loaded instance collections (A-box). -/
structure Instances where
  classes : List ClassInstance
  relations : List RelationInstance

/-- A target inside a raw instance's `relations` map: a plain string, an
object (with the truthiness of its `_to` and the presence of `_id`/`_class`
keys recorded), or a non-object non-string (whose `typeof` tag is kept;
`null` has tag `"object"`). -/
inductive RelTarget where
  | str (s : String)
  | obj (toTruthy hasIdOrClass : Bool)
  | other (typeName : String)
deriving DecidableEq, Repr

/-- A raw class instance as it appears in a document's `spec.classes`. -/
structure RawInstance where
  _id : Option String
  _class : Option String
  relations : Option (List (String × Option (List RelTarget)))

/-- A document's `spec` section; `classes` is `some` exactly when
`Array.isArray(spec.classes)`. -/
structure SpecDoc where
  relationsTruthy : Bool
  classes : Option (List RawInstance)

/-- A raw YAML document. -/
structure RawDoc where
  apiVersion : Option String
  kind : Option String
  hasSchema : Bool
  spec : Option SpecDoc

/-- One entry of `rawDocuments`: the source file and the parsed document. -/
structure RawDocEntry where
  source : String
  document : RawDoc

/-- The `LoadedData` handed to `validate`. -/
structure LoadedData where
  schema : Schema
  instances : Instances
  rawDocuments : List RawDocEntry

/-- The `counts` field of a validation result. -/
structure Counts where
  classes : Nat
  relations : Nat
deriving DecidableEq, Repr

/-- The `ValidationResult` record. -/
structure ValidationResult where
  valid : Bool
  errors : List Issue
  warnings : List Issue
  counts : Counts
deriving DecidableEq, Repr

/-- Truthy lookup of an object-valued key (absent and `null` are falsy). -/
def jsGetTruthy {α : Type} (m : List (String × Option α)) (k : String) : Option α :=
  match jsGet m k with
  | some (some v) => some v
  | _ => none

/-- Truthy lookup of a string-valued key (absent, `null` and `""` are
falsy). -/
def jsGetTruthyStr (m : List (String × Option String)) (k : String) : Option String :=
  match jsGet m k with
  | some (some s) => if s = "" then none else some s
  | _ => none

/-- `isProperCase`: `/^[A-Z][a-zA-Z0-9]*$/`. -/
def isProperCase (s : String) : Bool :=
  match s.data with
  | [] => false
  | c :: rest => c.isUpper && rest.all (fun d => d.isAlpha || d.isDigit)

/-- `isUppercaseUnderscored`: `/^[A-Z][A-Z0-9_]*$/`. -/
def isUppercaseUnderscored (s : String) : Bool :=
  match s.data with
  | [] => false
  | c :: rest => c.isUpper && rest.all (fun d => d.isUpper || d.isDigit || d = '_')

/-- `isCamelCase`: `/^[a-z][a-zA-Z0-9]*$/`. -/
def isCamelCase (s : String) : Bool :=
  match s.data with
  | [] => false
  | c :: rest => c.isLower && rest.all (fun d => d.isAlpha || d.isDigit)

/-- The class-name test of `parseTypedReference`:
`/^[A-Za-z][A-Za-z0-9_]*$/`. -/
def classNameRegex (s : String) : Bool :=
  match s.data with
  | [] => false
  | c :: rest => c.isAlpha && rest.all (fun d => d.isAlpha || d.isDigit || d = '_')

/-- The parsed `{min, max}` cardinality. -/
structure Card where
  minv : CardMaxVal
  maxv : CardMaxVal
deriving DecidableEq, Repr

/-- `parseCardinality(cardinality)`: shorthand codes map to fixed bounds,
anything else takes `min ?? 0` and `max ?? 'many'`. -/
def parseCardinality : Option CardSpec → Card
  | some (.code s) =>
    if s = "oto" then ⟨.num 1, .num 1⟩
    else if s = "otm" then ⟨.num 1, .many⟩
    else if s = "mto" then ⟨.num 0, .num 1⟩
    else if s = "mtm" then ⟨.num 0, .many⟩
    else ⟨.num 0, .many⟩
  | some (.obj mn mx) => ⟨mn.getD (.num 0), mx.getD .many⟩
  | none => ⟨.num 0, .many⟩

/-- The result of `parseTypedReference`. -/
inductive RefParse where
  | ok (id className : String)
  | err (msg : String)
deriving DecidableEq, Repr

/-- JS `s.lastIndexOf(':')` (−1 when absent). -/
def lastIndexOfColon (s : String) : Int :=
  let r := s.data.reverse.indexOf ':'
  if r = s.data.length then -1 else (s.data.length : Int) - 1 - r

/-- `parseTypedReference(value)`: split the trimmed string at the last
colon; the id part (trimmed) must be non-empty, the class part (trimmed)
must match `classNameRegex`. -/
def parseTypedReference (value : Value) : RefParse :=
  match value with
  | .vstr s =>
    let trimmed := jsTrim s
    if trimmed = "" then .err "expected ref in <id>:<Class> form, got empty string"
    else
      let separatorIndex := lastIndexOfColon trimmed
      if separatorIndex ≤ 0 ∨ separatorIndex = (trimmed.data.length : Int) - 1 then
        .err ("expected ref in <id>:<Class> form, got '" ++ trimmed ++ "'")
      else
        let id := jsTrim (String.mk (trimmed.data.take separatorIndex.toNat))
        let className := jsTrim (String.mk (trimmed.data.drop (separatorIndex.toNat + 1)))
        if id = "" then .err ("expected ref id before ':', got '" ++ trimmed ++ "'")
        else if ¬ (classNameRegex className) then
          .err ("expected class name after ':', got '" ++ className ++ "'")
        else .ok id className
  | v => .err ("expected ref string, got " ++ typeofStr v)

/-- The recursion of `validateType`, fueled: each array recursion strips
`[]` (two characters) from the type tag, so a fuel of the tag's length
plus one is never exhausted.  `none` means valid, `some e` carries the
error text.  The date oracle `dp` stands for `new Date(s)` validity. -/
def validateTypeFuel (dp : String → Bool) : Nat → Value → String → Option String
  | _, .vnull, _ => some "value is null or undefined"
  | 0, _, _ => none
  | fuel + 1, v, ty =>
    if jsEndsWith ty "[]" then
      let elementType := String.mk (ty.data.take (ty.data.length - 2))
      match v with
      | .varr elems =>
        (elems.foldl (fun (acc : Option String × Nat) e =>
          match acc.1 with
          | some _ => (acc.1, acc.2 + 1)
          | none =>
            (match validateTypeFuel dp fuel e elementType with
             | some err => (some ("element [" ++ toString acc.2 ++ "]: " ++ err), acc.2 + 1)
             | none => (none, acc.2 + 1))) (none, 0)).1
      | _ => some ("expected array, got " ++ typeofStr v)
    else if ty = "string" then
      match v with
      | .vstr _ => none
      | _ => some ("expected string, got " ++ typeofStr v)
    else if ty = "bool" then
      match v with
      | .vbool _ => none
      | _ => some ("expected bool, got " ++ typeofStr v)
    else if ty = "date" then
      match v with
      | .vstr s => if dp s then none else some "invalid date format"
      | .vdate => none
      | _ => some ("expected date, got " ++ typeofStr v)
    else if ty = "ref" then
      match v with
      | .vstr s =>
        (match parseTypedReference (.vstr s) with
         | .err e => some e
         | .ok _ _ => none)
      | _ => some ("expected ref string (<id>:<Class>), got " ++ typeofStr v)
    else none

/-- `validateType(value, type)`. -/
def validateType (dp : String → Bool) (v : Value) (ty : String) : Option String :=
  validateTypeFuel dp (ty.data.length + 1) v ty

/-! ## Validator checks -/

/-- `validateDocuments`: group the raw documents by source file, check
`apiVersion`/`kind` per document, and require a `schema:` or `spec:`
section somewhere in the file. -/
def validateDocuments (rawDocuments : List RawDocEntry) : List Issue :=
  let docsByFile := rawDocuments.foldl (fun m e => multiAdd m e.source e.document) []
  docsByFile.flatMap (fun fd =>
    let source := fd.1
    let docs := fd.2
    (docs.enum.flatMap (fun (i, doc) =>
      let docLabel := if docs.length > 1 then "document " ++ toString (i + 1) else "document"
      (if doc.apiVersion = some "agent/v1" then []
       else
         [⟨"error",
           (match doc.apiVersion with
            | some a =>
              if a = "" then "Missing required field 'apiVersion: agent/v1'"
              else "Invalid apiVersion '" ++ a ++ "', expected 'agent/v1'"
            | none => "Missing required field 'apiVersion: agent/v1'"),
           some source, docLabel⟩]) ++
      (if doc.kind = some "Ontology" then []
       else
         [⟨"error",
           (match doc.kind with
            | some k =>
              if k = "" then "Missing required field 'kind: Ontology'"
              else "Invalid kind '" ++ k ++ "', expected 'Ontology'"
            | none => "Missing required field 'kind: Ontology'"),
           some source, docLabel⟩]))) ++
    (if docs.any (fun d => d.hasSchema || d.spec.isSome) then []
     else
       [⟨"error", "File must contain at least one 'schema:' or 'spec:' section",
         some source, "file"⟩]))

/-- `validateNoTopLevelRelations`: a truthy `spec.relations` is a
deprecated flat relation list and is an error. -/
def validateNoTopLevelRelations (rawDocuments : List RawDocEntry) : List Issue :=
  rawDocuments.filterMap (fun e =>
    match e.document.spec with
    | some sp =>
      if sp.relationsTruthy then
        some ⟨"error",
          "Top-level 'spec.relations' is deprecated. Define relations within each class instance using 'relations:' property",
          some e.source, "spec.relations"⟩
      else none
    | none => none)

/-- `validateRelationTargetFormat`: each target in an instance's
`relations` map must be a plain ID string or an object with a truthy
`_to`. -/
def validateRelationTargetFormat (rawDocuments : List RawDocEntry) : List Issue :=
  rawDocuments.flatMap (fun e =>
    match e.document.spec.bind (fun sp => sp.classes) with
    | none => []
    | some insts =>
      insts.flatMap (fun inst =>
        match inst.relations with
        | none => []
        | some relmap =>
          let instanceId := jsOrDefault inst._id "unknown"
          let instanceClass := jsOrDefault inst._class "unknown"
          relmap.flatMap (fun rn =>
            match rn.2 with
            | none => []
            | some targets =>
              targets.enum.filterMap (fun (i, target) =>
                let loc := rn.1 ++ "[" ++ toString i ++ "]"
                match target with
                | .str _ => none
                | .obj true _ => none
                | .obj false hasIdOrClass =>
                  if hasIdOrClass then
                    some ⟨"error",
                      "Invalid relation target format in '" ++ loc ++
                        "': object has '_id'/'_class' but should be a simple ID string or use '_to' for qualified relations",
                      some e.source, instanceClass ++ ":" ++ instanceId⟩
                  else
                    some ⟨"error",
                      "Invalid relation target format in '" ++ loc ++
                        "': object must have '_to' key for qualified relations, or use a simple ID string",
                      some e.source, instanceClass ++ ":" ++ instanceId⟩
                | .other tn =>
                  some ⟨"error",
                    "Invalid relation target format in '" ++ loc ++
                      "': expected string or object with '_to', got " ++ tn,
                    some e.source, instanceClass ++ ":" ++ instanceId⟩))))

/-- `validateSchemaNames`: naming-convention checks; warnings only. -/
def validateSchemaNames (schema : Schema) : List Issue :=
  (schema.components.flatMap (fun ce =>
    (if isProperCase ce.1 then []
     else
       [⟨"warning",
         "Component name '" ++ ce.1 ++ "' should be ProperCase (e.g., Identity, Contact)",
         some "schema", "component:" ++ ce.1⟩]) ++
    (match ce.2 with
     | some cd =>
       match cd.properties with
       | some props =>
         props.filterMap (fun pe =>
           if isCamelCase pe.1 then none
           else
             some ⟨"warning",
               "Property name '" ++ pe.1 ++ "' should be camelCase (e.g., givenName, emailAddress)",
               some "schema", ce.1 ++ "." ++ pe.1⟩)
       | none => []
     | none => []))) ++
  (schema.classes.flatMap (fun ce =>
    (if isProperCase ce.1 then []
     else
       [⟨"warning",
         "Class name '" ++ ce.1 ++ "' should be ProperCase (e.g., Person, TeamMember)",
         some "schema", "class:" ++ ce.1⟩]) ++
    (match ce.2 with
     | some cd =>
       match cd.components with
       | some comps =>
         comps.filterMap (fun le =>
           if isCamelCase le.1 then none
           else
             some ⟨"warning",
               "Component local name '" ++ le.1 ++ "' should be camelCase (e.g., identity, contact)",
               some "schema", ce.1 ++ "." ++ le.1⟩)
       | none => []
     | none => []))) ++
  (schema.relations.flatMap (fun re =>
    (if isUppercaseUnderscored re.1 then []
     else
       [⟨"warning",
         "Relation name '" ++ re.1 ++ "' should be UPPERCASE_UNDERSCORED (e.g., MEMBER_OF, REPORTS_TO)",
         some "schema", "relation:" ++ re.1⟩]) ++
    (match re.2 with
     | some rd =>
       (match rd.cardinality with
        | some (.obj _ _) =>
          [⟨"warning",
            "Relation '" ++ re.1 ++
              "' cardinality should use shorthand format (oto, otm, mto, mtm) instead of \x7bmin, max\x7d",
            some "schema", "relation:" ++ re.1⟩]
        | _ => []) ++
       (match rd.qualifiers with
        | some quals =>
          quals.filterMap (fun qe =>
            if isCamelCase qe.1 then none
            else
              some ⟨"warning",
                "Qualifier name '" ++ qe.1 ++ "' should be camelCase (e.g., since, createdAt)",
                some "schema", re.1 ++ "." ++ qe.1⟩)
        | none => [])
     | none => [])))

/-- Is this value an array of non-empty-after-trim strings
(the well-formedness test shared by `allowedTypes` and `uiHints`)? -/
def stringArrayAllTruthy : Value → Bool
  | .varr l =>
    l.all (fun v =>
      match v with
      | .vstr s => jsTrim s ≠ ""
      | _ => false)
  | _ => false

/-- `validateSchemaPropertyMetadata`: `allowedTypes` is only legal on
`ref`/`ref[]` properties and must be a non-empty-string array; `uiHints`
must be a string array.  A null property definition makes the JS code read
`.allowedTypes` of `null` and throw. -/
def validateSchemaPropertyMetadata (schema : Schema) : Except String (List Issue) :=
  schema.components.foldlM (fun acc ce => do
    let properties :=
      match ce.2 with
      | some cd => cd.properties.getD []
      | none => []
    properties.foldlM (fun acc2 pe => do
      match pe.2 with
      | none => throw "TypeError: Cannot read properties of null (reading 'allowedTypes')"
      | some propDef =>
        let location := ce.1 ++ "." ++ pe.1
        let atErrs :=
          match propDef.allowedTypes with
          | none => []
          | some at2 =>
            if propDef.type ≠ some "ref" ∧ propDef.type ≠ some "ref[]" then
              [(⟨"error",
                "Property '" ++ location ++ "' uses allowedTypes but type is '" ++
                  optStr propDef.type ++ "' (expected ref/ref[])",
                some "schema", location⟩ : Issue)]
            else if ¬ stringArrayAllTruthy at2 then
              [⟨"error",
                "Property '" ++ location ++ "' allowedTypes must be a string array when provided",
                some "schema", location⟩]
            else []
        let uiErrs :=
          match propDef.uiHints with
          | none => []
          | some ui =>
            if ¬ stringArrayAllTruthy ui then
              [(⟨"error",
                "Property '" ++ location ++ "' uiHints must be a string array when provided",
                some "schema", location⟩ : Issue)]
            else []
        pure (acc2 ++ atErrs ++ uiErrs)) acc) []

/-- Add `n` to the per-file class count (creating the entry at 0 first, as
the source does). -/
def bumpCount (m : List (String × Nat)) (k : String) (n : Nat) : List (String × Nat) :=
  if (m.find? (fun p => p.1 = k)).isSome then
    m.map (fun p => if p.1 = k then (p.1, p.2 + n) else p)
  else m ++ [(k, n)]

/-- `validateSingleClassInstancePerFile`: more than one entry in a file's
`spec.classes` (summed over its documents) is an error. -/
def validateSingleClassInstancePerFile (rawDocuments : List RawDocEntry) : List Issue :=
  let classCountByFile := rawDocuments.foldl (fun m e =>
    bumpCount m e.source
      (match e.document.spec.bind (fun sp => sp.classes) with
       | some cs => cs.length
       | none => 0)) []
  classCountByFile.filterMap (fun fc =>
    if fc.2 > 1 then
      some ⟨"error",
        "File contains " ++ toString fc.2 ++
          " class instances; each file may contain exactly one class instance",
        some fc.1, "spec.classes"⟩
    else none)

/-- The truthy `_id` of an instance (`if (instance._id)`). -/
def truthyId (inst : ClassInstance) : Option String :=
  match inst._id with
  | some s => if s = "" then none else some s
  | none => none

/-- The loop of `validate` that builds `instancesById` (first binding wins)
and `firstSeenById`, reporting one duplicate-id error for every later
instance that redefines an already-seen `_id`. -/
def buildInstanceIndexAux : List ClassInstance → List Issue →
    List (String × (Option String × Option String)) → List (String × ClassInstance) →
    List Issue × List (String × ClassInstance)
  | [], errs, _, byId => (errs, byId)
  | inst :: rest, errs, firstSeen, byId =>
    match truthyId inst with
    | some t =>
      let byId2 := if (jsGet byId t).isSome then byId else byId ++ [(t, inst)]
      (match jsGet firstSeen t with
       | some fs =>
         buildInstanceIndexAux rest
           (errs ++ [⟨"error",
             "Duplicate _id '" ++ t ++
               "' detected; IDs must be globally unique (already defined in " ++
               optStr fs.1 ++ ")",
             inst._source, optStr inst._class ++ ":" ++ t⟩])
           firstSeen byId2
       | none =>
         buildInstanceIndexAux rest errs (firstSeen ++ [(t, (inst._source, inst._class))]) byId2)
    | none => buildInstanceIndexAux rest errs firstSeen byId

/-- The duplicate-id check and instance index of `validate`. -/
def buildInstanceIndex (insts : List ClassInstance) :
    List Issue × List (String × ClassInstance) :=
  buildInstanceIndexAux insts [] [] []

/-- The instance-root keys that may appear outside `components`. -/
def reservedFields : List String :=
  ["_class", "_id", "_namespace", "_source", "relations", "components"]

/-- The ref-integrity loop of `validateClassInstance` for one `ref`/`ref[]`
property whose type check already passed: parse each reference, then
require the target to exist, to have the stated class, and to satisfy
`allowedTypes` when present. -/
def checkRefValues (localName propName : String) (isArr : Bool)
    (allowedTypes : Option (List String)) (instancesById : List (String × ClassInstance))
    (source instanceId : String) (refValues : List Value) : List Issue :=
  refValues.enum.flatMap (fun iv =>
    let prop := "Property '" ++ localName ++ "." ++ propName ++ "'"
    match parseTypedReference iv.2 with
    | .err e =>
      [⟨"error",
        prop ++ " has invalid ref value" ++
          (if isArr then " at [" ++ toString iv.1 ++ "]" else "") ++ ": " ++ e,
        some source, instanceId⟩]
    | .ok rid rcls =>
      match jsGet instancesById rid with
      | none =>
        [⟨"error",
          prop ++ " references non-existent instance '" ++ rid ++ ":" ++ rcls ++ "'",
          some source, instanceId⟩]
      | some target =>
        if target._class ≠ some rcls then
          [⟨"error",
            prop ++ " reference type mismatch for '" ++ rid ++ ":" ++ rcls ++
              "' (actual class is '" ++ optStr target._class ++ "')",
            some source, instanceId⟩]
        else
          match allowedTypes with
          | some ats =>
            if ats.length > 0 ∧ ¬ ats.contains rcls then
              [⟨"error",
                prop ++ " reference '" ++ rid ++ ":" ++ rcls ++
                  "' violates allowedTypes [" ++ String.intercalate ", " ats ++ "]",
                some source, instanceId⟩]
            else []
          | none => [])

/-- The `allowedTypes` filter of `validateClassInstance`:
`Array.isArray(propDef.allowedTypes)` keeps the non-empty-after-trim string
items, anything else is `null`. -/
def allowedTypesFilter : Option Value → Option (List String)
  | some (.varr l) =>
    some (l.filterMap (fun it =>
      match it with
      | .vstr s => if jsTrim s = "" then none else some s
      | _ => none))
  | _ => none

/-- One iteration of the property loop of `validateClassInstance` for one
component block: required properties, type checks, and ref integrity.  A
null component block makes the JS code read `componentValues[propName]` of
`null` and throw; a null property definition makes it read `.required` of
`null` and throw. -/
def propEntryStep (dp : String → Bool) (localName : String)
    (componentValues? : Option (List (String × Value)))
    (instancesById : List (String × ClassInstance)) (source instanceId : String)
    (acc : List Issue) (pe : String × Option PropDef) : Except String (List Issue) := do
  match componentValues? with
  | none =>
    throw ("TypeError: Cannot read properties of null (reading '" ++ pe.1 ++ "')")
  | some componentValues =>
    match pe.2 with
    | none => throw "TypeError: Cannot read properties of null (reading 'required')"
    | some propDef =>
      let propName := pe.1
      let value? := jsGet componentValues propName
      let missing :=
        match value? with
        | none => true
        | some .vnull => true
        | some _ => false
      if propDef.required && missing then
        pure (acc ++ [⟨"error",
          "Missing required property '" ++ localName ++ "." ++ propName ++ "'",
          some source, instanceId⟩])
      else
        match value? with
        | none => pure acc
        | some .vnull => pure acc
        | some v =>
          match propDef.type with
          | none => pure acc
          | some ty =>
            if ty = "" then pure acc
            else
              let typeErrs :=
                match validateType dp v ty with
                | some e =>
                  [(⟨"error",
                    "Property '" ++ localName ++ "." ++ propName ++
                      "' has invalid type: " ++ e,
                    some source, instanceId⟩ : Issue)]
                | none => []
              let refErrs :=
                if (validateType dp v ty).isNone ∧ (ty = "ref" ∨ ty = "ref[]") then
                  let refValues :=
                    if ty = "ref[]" then
                      (match v with
                       | .varr l => l
                       | _ => [])
                    else [v]
                  checkRefValues localName propName (ty = "ref[]")
                    (allowedTypesFilter propDef.allowedTypes) instancesById source
                    instanceId refValues
                else []
              pure (acc ++ typeErrs ++ refErrs)

/-- The property loop of `validateClassInstance` for one component block. -/
def validateComponentProps (dp : String → Bool) (localName : String)
    (properties : List (String × Option PropDef))
    (componentValues? : Option (List (String × Value)))
    (instancesById : List (String × ClassInstance)) (source instanceId : String) :
    Except String (List Issue) :=
  properties.foldlM (propEntryStep dp localName componentValues? instancesById
    source instanceId) []

/-- One iteration of the component-blocks loop of `validateClassInstance`:
the local name must be declared on the class, its component class defined;
then the block's properties are validated and its undeclared properties
reported (reading `Object.keys` of a null block throws). -/
def componentEntryStep (dp : String → Bool) (classComponents : List (String × Option String))
    (componentSchemas : List (String × Option ComponentDef))
    (instancesById : List (String × ClassInstance)) (instClass : Option String)
    (source instanceId : String) (acc : List Issue)
    (ce : String × Option (List (String × Value))) : Except String (List Issue) := do
  let localName := ce.1
  match jsGetTruthyStr classComponents localName with
  | none =>
    pure (acc ++ [⟨"error",
      "Component '" ++ localName ++ "' is not defined in class schema for '" ++
        optStr instClass ++ "'",
      some source, instanceId⟩])
  | some componentClassName =>
    match jsGetTruthy componentSchemas componentClassName with
    | none =>
      pure (acc ++ [⟨"error",
        "Component class '" ++ componentClassName ++ "' (referenced by '" ++ localName ++
          "') is not defined in schema",
        some source, instanceId⟩])
    | some componentDef => do
      let properties := componentDef.properties.getD []
      let propErrs ← validateComponentProps dp localName properties ce.2 instancesById
        source instanceId
      match ce.2 with
      | none => throw "TypeError: Cannot convert undefined or null to object"
      | some componentValues =>
        let undefErrs := componentValues.filterMap (fun pv =>
          if (jsGetTruthy properties pv.1).isSome then none
          else
            some ⟨"error",
              "Property '" ++ localName ++ "." ++ pv.1 ++
                "' is not defined in component '" ++ componentClassName ++ "'",
              some source, instanceId⟩)
        pure (acc ++ propErrs ++ undefErrs)

/-- The `Object.values(properties).some(p => p.required)` loop (a null
property definition read after a required one is never reached, as `some`
short-circuits). -/
def hasRequiredStep (b : Bool) (pp : String × Option PropDef) : Except String Bool := do
  if b then pure true
  else
    match pp.2 with
    | none => throw "TypeError: Cannot read properties of null (reading 'required')"
    | some pd => pure pd.required

/-- One iteration of the required-components loop of
`validateClassInstance`: a declared component absent from the instance
whose component class has a required property is an error. -/
def requiredComponentStep (componentSchemas : List (String × Option ComponentDef))
    (instanceComponents : List (String × Option (List (String × Value))))
    (source instanceId : String) (acc : List Issue) (le : String × Option String) :
    Except String (List Issue) := do
  let localName := le.1
  if (jsGetTruthy instanceComponents localName).isSome then pure acc
  else
    let key := optStrNull le.2
    match jsGetTruthy componentSchemas key with
    | none => pure acc
    | some componentDef =>
      match componentDef.properties with
      | none => pure acc
      | some props => do
        let hasRequired ← props.foldlM hasRequiredStep false
        if hasRequired then
          pure (acc ++ [⟨"error",
            "Missing required component '" ++ localName ++ "' (" ++ key ++ ")",
            some source, instanceId⟩])
        else pure acc

/-- `validateClassInstance(instance, classSchema, componentSchemas,
instancesById, ...)`: root keys must be reserved; every component block
must be declared and its component class defined; properties are validated
against their definitions; undeclared properties are errors; an absent
component whose class has a required property is an error.  The source
never writes warnings here, so only the error list is returned. -/
def validateClassInstance (dp : String → Bool) (inst : ClassInstance)
    (classSchema : Option ClassDef)
    (componentSchemas : List (String × Option ComponentDef))
    (instancesById : List (String × ClassInstance)) : Except String (List Issue) := do
  let source := jsOrDefault inst._source "unknown"
  let instanceId := optStr inst._class ++ ":" ++ optStr inst._id
  let classComponents := (classSchema.bind (fun cs => cs.components)).getD []
  let instanceComponents := inst.components.getD []
  let rootErrs := inst.rootKeys.filterMap (fun k =>
    if reservedFields.contains k then none
    else
      some ⟨"error",
        "Property '" ++ k ++ "' must be defined inside a component, not at instance root level",
        some source, instanceId⟩)
  let compErrs ← instanceComponents.foldlM
    (componentEntryStep dp classComponents componentSchemas instancesById inst._class
      source instanceId) []
  let reqErrs ← classComponents.foldlM
    (requiredComponentStep componentSchemas instanceComponents source instanceId) []
  pure (rootErrs ++ compErrs ++ reqErrs)

/-- `validateRelationInstance(relation, relationSchema, instancesById, ...)`:
both endpoints must exist; non-wildcard `domain`/`range` must match the
endpoint classes; declared qualifiers present on the edge are type-checked
(a null qualifier definition makes the JS code read `.type` of `null` and
throw). -/
def validateRelationInstance (dp : String → Bool) (relation : RelationInstance)
    (relationSchema : RelationDef) (instancesById : List (String × ClassInstance)) :
    Except String (List Issue) := do
  let source := jsOrDefault relation._source "unknown"
  let relationId :=
    relation._from ++ " -[" ++ relation._relation ++ "]-> " ++ relation._to
  let fromInstance := jsGet instancesById relation._from
  let toInstance := jsGet instancesById relation._to
  let fromErrs :=
    match fromInstance with
    | none =>
      [(⟨"error", "Relation references non-existent source '" ++ relation._from ++ "'",
        some source, relationId⟩ : Issue)]
    | some _ => []
  let toErrs :=
    match toInstance with
    | none =>
      [(⟨"error", "Relation references non-existent target '" ++ relation._to ++ "'",
        some source, relationId⟩ : Issue)]
    | some _ => []
  let domainErrs :=
    match fromInstance with
    | some f =>
      (match relationSchema.domain with
       | some d =>
         if d ≠ "" ∧ d ≠ "*" ∧ f._class ≠ some d then
           [(⟨"error",
             "Domain mismatch: '" ++ relation._from ++ "' is " ++ optStr f._class ++
               ", expected " ++ d,
             some source, relationId⟩ : Issue)]
         else []
       | none => [])
    | none => []
  let rangeErrs :=
    match toInstance with
    | some t =>
      (match relationSchema.range with
       | some r2 =>
         if r2 ≠ "" ∧ r2 ≠ "*" ∧ t._class ≠ some r2 then
           [(⟨"error",
             "Range mismatch: '" ++ relation._to ++ "' is " ++ optStr t._class ++
               ", expected " ++ r2,
             some source, relationId⟩ : Issue)]
         else []
       | none => [])
    | none => []
  let qualErrs ←
    match relationSchema.qualifiers with
    | none => pure []
    | some quals =>
      quals.foldlM (fun acc qe => do
        let value? := relGet relation qe.1
        match value? with
        | none => pure acc
        | some .vnull => pure acc
        | some v =>
          match qe.2 with
          | none => throw "TypeError: Cannot read properties of null (reading 'type')"
          | some qualDef =>
            match qualDef.type with
            | none => pure acc
            | some ty =>
              if ty = "" then pure acc
              else
                match validateType dp v ty with
                | some e =>
                  pure (acc ++ [⟨"error",
                    "Qualifier '" ++ qe.1 ++ "' has invalid type: " ++ e,
                    some source, relationId⟩])
                | none => pure acc) []
  pure (fromErrs ++ toErrs ++ domainErrs ++ rangeErrs ++ qualErrs)

/-- `validateRelationPlacement(relations, instancesById, ...)`: an edge
whose `_from` instance exists must live in that instance's source file;
edges with a missing `_from` are skipped (already reported). -/
def validateRelationPlacement (relations : List RelationInstance)
    (instancesById : List (String × ClassInstance)) : List Issue :=
  relations.filterMap (fun relation =>
    match jsGet instancesById relation._from with
    | none => none
    | some fromInstance =>
      if relation._source ≠ fromInstance._source then
        some ⟨"error",
          "Relation must be defined in same file as '" ++ relation._from ++
            "' (expected " ++ optStr fromInstance._source ++ ")",
          relation._source,
          relation._from ++ " -[" ++ relation._relation ++ "]-> " ++ relation._to⟩
      else none)

/-- One entry of the `fromCounts`/`toCounts` maps of `validateCardinality`:
the running count and the source of the first edge seen for the key. -/
structure CountData where
  count : Nat
  source : Option String
deriving DecidableEq, Repr

/-- Count an edge under a string key, keeping the first edge's source. -/
def bumpKey (m : List (String × CountData)) (k : String) (src : Option String) :
    List (String × CountData) :=
  if (m.find? (fun p => p.1 = k)).isSome then
    m.map (fun p => if p.1 = k then (p.1, ⟨p.2.count + 1, p.2.source⟩) else p)
  else m ++ [(k, ⟨1, src⟩)]

/-- `validateCardinality(relations, relationSchemas, instancesById, ...)`:
group edges by the string key `` `${from}:${relation}` ``, then for every
declared relation type whose parsed `max` is a number flag each group whose
key ends in `` `:${relName}` `` and whose count exceeds the max.  The
`instancesById` argument is unused, as in the source; `toCounts` is built
and never read, as in the source.  A null relation definition makes the JS
code read `.cardinality` of `null` and throw. -/
def validateCardinality (relations : List RelationInstance)
    (relationSchemas : List (String × Option RelationDef))
    (instancesById : List (String × ClassInstance)) : Except String (List Issue) :=
  let fromCounts := relations.foldl
    (fun m rel => bumpKey m (rel._from ++ ":" ++ rel._relation) rel._source) []
  let _toCounts := relations.foldl
    (fun m rel => bumpKey m (rel._to ++ ":" ++ rel._relation) rel._source) []
  relationSchemas.foldlM (fun acc re => do
    match re.2 with
    | none => throw "TypeError: Cannot read properties of null (reading 'cardinality')"
    | some relSchema =>
      let card := parseCardinality relSchema.cardinality
      match card.maxv with
      | .num mx =>
        pure (acc ++ fromCounts.filterMap (fun kd =>
          if jsEndsWith kd.1 (":" ++ re.1) ∧ (kd.2.count : Int) > mx then
            some ⟨"error",
              "Cardinality violation: '" ++ splitHeadColon kd.1 ++ "' has " ++
                toString kd.2.count ++ " '" ++ re.1 ++ "' relations, maximum is " ++
                toString mx,
              kd.2.source, splitHeadColon kd.1⟩
          else none))
      | _ => pure acc) []

/-- The implicit, reserved `LINKS_TO` relation schema. -/
def implicitLinksToSchema : RelationDef :=
  ⟨some "*", some "*", some (.code "mtm"), none⟩

/-- The per-instance loop of `validate`: unknown classes short-circuit the
instance's other checks. -/
def validateInstancesList (dp : String → Bool) (schema : Schema)
    (instancesById : List (String × ClassInstance)) (insts : List ClassInstance) :
    Except String (List Issue) :=
  insts.foldlM (fun acc inst => do
    match jsGetTruthy schema.classes (optStr inst._class) with
    | none =>
      pure (acc ++ [⟨"error",
        "Class '" ++ optStr inst._class ++ "' not defined in schema",
        inst._source, optStr inst._class ++ ":" ++ optStr inst._id⟩])
    | some classDef => do
      let errs ← validateClassInstance dp inst (some classDef) schema.components instancesById
      pure (acc ++ errs)) []

/-- The per-edge loop of `validate`: `LINKS_TO` uses the implicit schema,
unknown relation types short-circuit the edge's other checks. -/
def validateRelationsList (dp : String → Bool) (schema : Schema)
    (instancesById : List (String × ClassInstance)) (rels : List RelationInstance) :
    Except String (List Issue) :=
  rels.foldlM (fun acc relation => do
    let relationSchema? :=
      if relation._relation = "LINKS_TO" then some implicitLinksToSchema
      else jsGetTruthy schema.relations relation._relation
    match relationSchema? with
    | none =>
      pure (acc ++ [⟨"error",
        "Relation '" ++ relation._relation ++ "' not defined in schema",
        relation._source,
        relation._from ++ " -[" ++ relation._relation ++ "]-> " ++ relation._to⟩])
    | some rs => do
      let errs ← validateRelationInstance dp relation rs instancesById
      pure (acc ++ errs)) []

/-- `validate(data)`: run every check in source order, accumulating all
errors and warnings into one report.  A check that raises a JS `TypeError`
propagates as `Except.error`, discarding the report — the source's `throw`
behaviour. -/
def validate (dp : String → Bool) (data : LoadedData) : Except String ValidationResult := do
  let linksErrs :=
    if (jsGetTruthy data.schema.relations "LINKS_TO").isSome then
      [(⟨"error", "Relation 'LINKS_TO' is reserved and cannot be declared in schema",
        some "schema", "relation:LINKS_TO"⟩ : Issue)]
    else []
  let docErrs := validateDocuments data.rawDocuments
  let topErrs := validateNoTopLevelRelations data.rawDocuments
  let tgtErrs := validateRelationTargetFormat data.rawDocuments
  let nameWarns := validateSchemaNames data.schema
  let metaErrs ← validateSchemaPropertyMetadata data.schema
  let singleErrs := validateSingleClassInstancePerFile data.rawDocuments
  let dup := buildInstanceIndex data.instances.classes
  let instErrs ← validateInstancesList dp data.schema dup.2 data.instances.classes
  let relErrs ← validateRelationsList dp data.schema dup.2 data.instances.relations
  let placeErrs := validateRelationPlacement data.instances.relations dup.2
  let cardErrs ← validateCardinality data.instances.relations data.schema.relations dup.2
  let errors := linksErrs ++ docErrs ++ topErrs ++ tgtErrs ++ metaErrs ++ singleErrs ++
    dup.1 ++ instErrs ++ relErrs ++ placeErrs ++ cardErrs
  pure ⟨errors.isEmpty, errors, nameWarns,
    ⟨data.instances.classes.length, data.instances.relations.length⟩⟩

/-- C4 (code bug): `validate` is not total.  On a loaded graph whose
schema declares a component with a null property definition (YAML
`properties: { name: }`), `validateSchemaPropertyMetadata` reads
`propDef.allowedTypes` of `null` and the whole validation throws a
`TypeError` instead of reporting a structured issue — contradicting the
documented contract that validation never throws and always returns a
complete report. -/
theorem validate_throws_on_null_propdef :
    validate (fun _ => false)
      ⟨⟨[("Identity", some ⟨some [("name", none)]⟩)], [], []⟩, ⟨[], []⟩, []⟩ =
      Except.error "TypeError: Cannot read properties of null (reading 'allowedTypes')" := by
  rfl

/-- When `validate` returns a report, its error list is exactly the
concatenation of every check's output in source order (no check is skipped
and no issue is dropped), the warnings are the naming-convention warnings,
`valid` is emptiness of the errors, and `counts` are the collection
sizes. -/
theorem validate_ok_shape (dp : String → Bool) (data : LoadedData) (r : ValidationResult)
    (h : validate dp data = Except.ok r) :
    ∃ metaErrs instErrs relErrs cardErrs,
      validateSchemaPropertyMetadata data.schema = Except.ok metaErrs ∧
      validateInstancesList dp data.schema (buildInstanceIndex data.instances.classes).2
        data.instances.classes = Except.ok instErrs ∧
      validateRelationsList dp data.schema (buildInstanceIndex data.instances.classes).2
        data.instances.relations = Except.ok relErrs ∧
      validateCardinality data.instances.relations data.schema.relations
        (buildInstanceIndex data.instances.classes).2 = Except.ok cardErrs ∧
      r.errors =
        (if (jsGetTruthy data.schema.relations "LINKS_TO").isSome then
          [⟨"error", "Relation 'LINKS_TO' is reserved and cannot be declared in schema",
            some "schema", "relation:LINKS_TO"⟩]
         else []) ++
        validateDocuments data.rawDocuments ++
        validateNoTopLevelRelations data.rawDocuments ++
        validateRelationTargetFormat data.rawDocuments ++
        metaErrs ++
        validateSingleClassInstancePerFile data.rawDocuments ++
        (buildInstanceIndex data.instances.classes).1 ++
        instErrs ++ relErrs ++
        validateRelationPlacement data.instances.relations
          (buildInstanceIndex data.instances.classes).2 ++
        cardErrs ∧
      r.warnings = validateSchemaNames data.schema ∧
      r.valid = r.errors.isEmpty ∧
      r.counts = ⟨data.instances.classes.length, data.instances.relations.length⟩ := by
  simp only [validate] at h
  cases hm : validateSchemaPropertyMetadata data.schema with
  | error e =>
    rw [hm] at h; simp only [except_error_bind] at h; exact absurd h (by simp)
  | ok metaErrs =>
    rw [hm] at h
    simp only [except_ok_bind] at h
    cases hi : validateInstancesList dp data.schema
        (buildInstanceIndex data.instances.classes).2 data.instances.classes with
    | error e =>
      rw [hi] at h; simp only [except_error_bind] at h; exact absurd h (by simp)
    | ok instErrs =>
      rw [hi] at h
      simp only [except_ok_bind] at h
      cases hr : validateRelationsList dp data.schema
          (buildInstanceIndex data.instances.classes).2 data.instances.relations with
      | error e =>
        rw [hr] at h; simp only [except_error_bind] at h; exact absurd h (by simp)
      | ok relErrs =>
        rw [hr] at h
        simp only [except_ok_bind] at h
        cases hc : validateCardinality data.instances.relations data.schema.relations
            (buildInstanceIndex data.instances.classes).2 with
        | error e =>
          rw [hc] at h; simp only [except_error_bind] at h; exact absurd h (by simp)
        | ok cardErrs =>
          rw [hc] at h
          simp only [except_ok_bind] at h
          injection h with h1
          subst h1
          exact ⟨metaErrs, instErrs, relErrs, cardErrs, rfl, rfl, rfl, rfl, rfl, rfl, rfl, rfl⟩

/-- The edge-placement errors as the specification words them: for every
edge whose from-instance exists in the index, one error exactly when the
edge's source file differs from the from-instance's source file; edges
whose from-instance does not exist are skipped. -/
def specPlacementErrors (relations : List RelationInstance)
    (instancesById : List (String × ClassInstance)) : List Issue :=
  relations.filterMap (fun edge =>
    match jsGet instancesById edge._from with
    | none => none
    | some inst =>
      if edge._source = inst._source then none
      else
        some ⟨"error",
          "Relation must be defined in same file as '" ++ edge._from ++
            "' (expected " ++ optStr inst._source ++ ")",
          edge._source,
          edge._from ++ " -[" ++ edge._relation ++ "]-> " ++ edge._to⟩)

/-- C9: validation emits a placement error if and only if an edge's
from-instance exists in the instance index and the edge's source file
differs from that instance's source file; edges with a missing
from-instance are skipped by this check.  The second part places these
errors inside the full `validate` report. -/
theorem relation_placement_iff_source_differs :
    (∀ (rels : List RelationInstance) (idx : List (String × ClassInstance)),
      validateRelationPlacement rels idx = specPlacementErrors rels idx) ∧
    (∀ (dp : String → Bool) (data : LoadedData) (r : ValidationResult),
      validate dp data = Except.ok r →
      ∃ pre post, r.errors =
        pre ++ specPlacementErrors data.instances.relations
          (buildInstanceIndex data.instances.classes).2 ++ post) := by
  have hfun : ∀ (rels : List RelationInstance) (idx : List (String × ClassInstance)),
      validateRelationPlacement rels idx = specPlacementErrors rels idx := by
    intro rels idx
    unfold validateRelationPlacement specPlacementErrors
    induction rels with
    | nil => rfl
    | cons rel rest ih =>
      simp only [List.filterMap_cons]
      cases hg : jsGet idx rel._from with
      | none => simpa using ih
      | some inst =>
        by_cases heq : rel._source = inst._source
        · simp only [heq]
          simpa [heq] using ih
        · simp only [heq]
          simpa [heq] using ih
  refine ⟨hfun, ?_⟩
  intro dp data r h
  obtain ⟨m, i, rl, c, -, -, -, -, herr, -, -, -⟩ := validate_ok_shape dp data r h
  rw [hfun] at herr
  exact ⟨_, _, herr⟩

/-- Witness for C9 at the empty graph: `validate` succeeds and the report
contains the (empty) placement-error segment. -/
theorem relation_placement_iff_source_differs_witness :
    ∃ pre post,
      (⟨true, [], [], ⟨0, 0⟩⟩ : ValidationResult).errors =
        pre ++ specPlacementErrors ([] : List RelationInstance)
          (buildInstanceIndex ([] : List ClassInstance)).2 ++ post :=
  relation_placement_iff_source_differs.2 (fun _ => false)
    ⟨⟨[], [], []⟩, ⟨[], []⟩, []⟩ ⟨true, [], [], ⟨0, 0⟩⟩ (by rfl)

/-- `find?` over an append: the left list wins. -/
theorem find?_append_eq {α : Type} (p : α → Bool) (l1 l2 : List α) :
    (l1 ++ l2).find? p =
      (match l1.find? p with
       | some x => some x
       | none => l2.find? p) := by
  induction l1 with
  | nil => simp
  | cons a l ih =>
    by_cases h : p a
    · simp [List.find?_cons_of_pos, h]
    · simp only [List.cons_append, List.find?_cons_of_neg _ h, ih]

/-- `jsGet` after appending one binding at the end. -/
theorem jsGet_append_single {α : Type} (m : List (String × α)) (k : String) (v : α)
    (t : String) :
    jsGet (m ++ [(k, v)]) t =
      (match jsGet m t with
       | some x => some x
       | none => if k = t then some v else none) := by
  unfold jsGet
  rw [find?_append_eq]
  cases hf : m.find? (fun p => p.1 = t) with
  | some x => simp
  | none =>
    by_cases hk : k = t
    · simp [List.find?_cons_of_pos, hk]
    · simp [List.find?_cons_of_neg, hk]

/-- The duplicate-id errors as the specification words them: walking the
instances in load order with the prefix of already-processed instances at
hand, an instance whose truthy `_id` already occurs in the prefix yields
exactly one error naming the source file of the first instance that
defined the id; the first definition itself yields none. -/
def specDupIdErrorsAux : List ClassInstance → List ClassInstance → List Issue
  | _, [] => []
  | prev, inst :: rest =>
    (match truthyId inst with
     | some t =>
       (match prev.find? (fun p => truthyId p == some t) with
        | some firstInst =>
          [(⟨"error",
            "Duplicate _id '" ++ t ++
              "' detected; IDs must be globally unique (already defined in " ++
              optStr firstInst._source ++ ")",
            inst._source, optStr inst._class ++ ":" ++ t⟩ : Issue)]
        | none => [])
     | none => []) ++ specDupIdErrorsAux (prev ++ [inst]) rest

/-- The duplicate-id errors of a whole instance list. -/
def specDupIdErrors (insts : List ClassInstance) : List Issue :=
  specDupIdErrorsAux [] insts

/-- Invariant induction for the duplicate-id loop: given that `firstSeen`
and `byId` reflect the already-processed prefix, the loop appends exactly
the specification's duplicate errors and the final index maps every id to
the first instance that defined it. -/
theorem buildInstanceIndexAux_spec :
    ∀ (rest prev : List ClassInstance) (errs : List Issue)
      (firstSeen : List (String × (Option String × Option String)))
      (byId : List (String × ClassInstance)),
    (∀ t, jsGet firstSeen t =
      (prev.find? (fun p => truthyId p == some t)).map (fun p => (p._source, p._class))) →
    (∀ t, jsGet byId t = prev.find? (fun p => truthyId p == some t)) →
    (buildInstanceIndexAux rest errs firstSeen byId).1 =
        errs ++ specDupIdErrorsAux prev rest ∧
      (∀ t, jsGet (buildInstanceIndexAux rest errs firstSeen byId).2 t =
        (prev ++ rest).find? (fun p => truthyId p == some t)) := by
  intro rest
  induction rest with
  | nil =>
    intro prev errs firstSeen byId h1 h2
    refine ⟨by simp [buildInstanceIndexAux, specDupIdErrorsAux], ?_⟩
    intro t
    simp only [buildInstanceIndexAux, List.append_nil]
    exact h2 t
  | cons inst rest ih =>
    intro prev errs firstSeen byId h1 h2
    cases hti : truthyId inst with
    | none =>
      have hpredFalse : ∀ t : String, (truthyId inst == some t) = false := by
        intro t; rw [hti]; rfl
      have h1b : ∀ t, jsGet firstSeen t =
          ((prev ++ [inst]).find? (fun p => truthyId p == some t)).map
            (fun p => (p._source, p._class)) := by
        intro t
        rw [find?_append_eq]
        cases hf : prev.find? (fun p => truthyId p == some t) with
        | some x => rw [h1 t, hf]
        | none =>
          rw [h1 t, hf]
          simp [List.find?, hpredFalse t]
      have h2b : ∀ t, jsGet byId t =
          (prev ++ [inst]).find? (fun p => truthyId p == some t) := by
        intro t
        rw [find?_append_eq]
        cases hf : prev.find? (fun p => truthyId p == some t) with
        | some x => rw [h2 t, hf]
        | none =>
          rw [h2 t, hf]
          simp [List.find?, hpredFalse t]
      have hrec := ih (prev ++ [inst]) errs firstSeen byId h1b h2b
      constructor
      · rw [show buildInstanceIndexAux (inst :: rest) errs firstSeen byId =
            buildInstanceIndexAux rest errs firstSeen byId by
          simp [buildInstanceIndexAux, hti]]
        rw [hrec.1]
        simp [specDupIdErrorsAux, hti]
      · intro t
        rw [show buildInstanceIndexAux (inst :: rest) errs firstSeen byId =
            buildInstanceIndexAux rest errs firstSeen byId by
          simp [buildInstanceIndexAux, hti]]
        rw [hrec.2 t]
        simp
    | some t0 =>
      have hpred : ∀ t : String, (truthyId inst == some t) = decide (t0 = t) := by
        intro t
        rw [hti]
        by_cases h : t0 = t
        · subst h; simp
        · simp [h]
      have hbyId2 : ∀ t,
          jsGet (if (jsGet byId t0).isSome then byId else byId ++ [(t0, inst)]) t =
            (prev ++ [inst]).find? (fun p => truthyId p == some t) := by
        intro t
        rw [find?_append_eq]
        by_cases hs : (jsGet byId t0).isSome
        · rw [if_pos hs]
          cases hf : prev.find? (fun p => truthyId p == some t) with
          | some x => rw [h2 t, hf]
          | none =>
            rw [h2 t, hf]
            by_cases ht0 : t0 = t
            · subst ht0
              rw [h2 t0, hf] at hs
              simp at hs
            · simp [List.find?, hpred t, ht0]
        · rw [if_neg hs]
          rw [jsGet_append_single]
          cases hf : prev.find? (fun p => truthyId p == some t) with
          | some x => rw [h2 t, hf]
          | none =>
            rw [h2 t, hf]
            by_cases ht0 : t0 = t
            · subst ht0
              simp [List.find?, hpred t0]
            · simp [List.find?, hpred t, ht0]
      cases hfs : jsGet firstSeen t0 with
      | some fs =>
        obtain ⟨p0, hp0, hfs0⟩ : ∃ p0,
            prev.find? (fun p => truthyId p == some t0) = some p0 ∧
              fs = (p0._source, p0._class) := by
          have := h1 t0
          rw [hfs] at this
          cases hf : prev.find? (fun p => truthyId p == some t0) with
          | some x =>
            rw [hf] at this
            simp only [Option.map_some'] at this
            exact ⟨x, rfl, by injection this⟩
          | none => rw [hf] at this; simp at this
        have h1b : ∀ t, jsGet firstSeen t =
            ((prev ++ [inst]).find? (fun p => truthyId p == some t)).map
              (fun p => (p._source, p._class)) := by
          intro t
          rw [find?_append_eq]
          cases hf : prev.find? (fun p => truthyId p == some t) with
          | some x => rw [h1 t, hf]
          | none =>
            rw [h1 t, hf]
            by_cases ht0 : t0 = t
            · subst ht0
              rw [hf] at hp0
              exact absurd hp0 (by simp)
            · simp [List.find?, hpred t, ht0]
        have hrec := ih (prev ++ [inst])
          (errs ++ [⟨"error",
            "Duplicate _id '" ++ t0 ++
              "' detected; IDs must be globally unique (already defined in " ++
              optStr fs.1 ++ ")",
            inst._source, optStr inst._class ++ ":" ++ t0⟩])
          firstSeen (if (jsGet byId t0).isSome then byId else byId ++ [(t0, inst)])
          h1b hbyId2
        have hstep : buildInstanceIndexAux (inst :: rest) errs firstSeen byId =
            buildInstanceIndexAux rest
              (errs ++ [⟨"error",
                "Duplicate _id '" ++ t0 ++
                  "' detected; IDs must be globally unique (already defined in " ++
                  optStr fs.1 ++ ")",
                inst._source, optStr inst._class ++ ":" ++ t0⟩])
              firstSeen (if (jsGet byId t0).isSome then byId else byId ++ [(t0, inst)]) := by
          simp [buildInstanceIndexAux, hti, hfs]
        constructor
        · rw [hstep, hrec.1]
          rw [show specDupIdErrorsAux prev (inst :: rest) =
              [⟨"error",
                "Duplicate _id '" ++ t0 ++
                  "' detected; IDs must be globally unique (already defined in " ++
                  optStr p0._source ++ ")",
                inst._source, optStr inst._class ++ ":" ++ t0⟩] ++
                specDupIdErrorsAux (prev ++ [inst]) rest by
            simp [specDupIdErrorsAux, hti, hp0]]
          rw [hfs0]
          simp
        · intro t
          rw [hstep, hrec.2 t]
          simp
      | none =>
        have hfnone : prev.find? (fun p => truthyId p == some t0) = none := by
          have := h1 t0
          rw [hfs] at this
          cases hf : prev.find? (fun p => truthyId p == some t0) with
          | some x => rw [hf] at this; simp at this
          | none => rfl
        have h1b : ∀ t,
            jsGet (firstSeen ++ [(t0, (inst._source, inst._class))]) t =
              ((prev ++ [inst]).find? (fun p => truthyId p == some t)).map
                (fun p => (p._source, p._class)) := by
          intro t
          rw [find?_append_eq, jsGet_append_single]
          cases hf : prev.find? (fun p => truthyId p == some t) with
          | some x => rw [h1 t, hf]; rfl
          | none =>
            rw [h1 t, hf]
            by_cases ht0 : t0 = t
            · subst ht0
              simp [List.find?, hpred t0]
            · simp [List.find?, hpred t, ht0]
        have hrec := ih (prev ++ [inst]) errs
          (firstSeen ++ [(t0, (inst._source, inst._class))])
          (if (jsGet byId t0).isSome then byId else byId ++ [(t0, inst)])
          h1b hbyId2
        have hstep : buildInstanceIndexAux (inst :: rest) errs firstSeen byId =
            buildInstanceIndexAux rest errs
              (firstSeen ++ [(t0, (inst._source, inst._class))])
              (if (jsGet byId t0).isSome then byId else byId ++ [(t0, inst)]) := by
          simp [buildInstanceIndexAux, hti, hfs]
        constructor
        · rw [hstep, hrec.1]
          simp [specDupIdErrorsAux, hti, hfnone]
        · intro t
          rw [hstep, hrec.2 t]
          simp

/-- C2: instance `_id`s are globally unique across files and namespaces —
the first instance in load order that defines an id wins (the index maps
the id to it), and every subsequent instance with the same truthy `_id`,
even of a different class, produces exactly one duplicate-id error whose
message names the source file of the first definition; those errors appear
in the full `validate` report. -/
theorem duplicate_id_globally_unique :
    (∀ insts : List ClassInstance,
      (buildInstanceIndex insts).1 = specDupIdErrors insts) ∧
    (∀ (insts : List ClassInstance) (t : String),
      jsGet (buildInstanceIndex insts).2 t =
        insts.find? (fun p => truthyId p == some t)) ∧
    (∀ (dp : String → Bool) (data : LoadedData) (r : ValidationResult),
      validate dp data = Except.ok r →
      ∃ pre post, r.errors =
        pre ++ specDupIdErrors data.instances.classes ++ post) := by
  have hmain : ∀ insts : List ClassInstance,
      (buildInstanceIndex insts).1 = specDupIdErrors insts ∧
        (∀ t, jsGet (buildInstanceIndex insts).2 t =
          insts.find? (fun p => truthyId p == some t)) := by
    intro insts
    have := buildInstanceIndexAux_spec insts [] [] [] []
      (fun t => by simp [jsGet]) (fun t => by simp [jsGet])
    unfold buildInstanceIndex specDupIdErrors
    exact ⟨by rw [this.1]; simp, fun t => by rw [this.2 t]; simp⟩
  refine ⟨fun insts => (hmain insts).1, fun insts t => (hmain insts).2 t, ?_⟩
  intro dp data r h
  obtain ⟨m, i, rl, c, -, -, -, -, herr, -, -, -⟩ := validate_ok_shape dp data r h
  rw [(hmain data.instances.classes).1] at herr
  refine ⟨(if (jsGetTruthy data.schema.relations "LINKS_TO").isSome then
      [⟨"error", "Relation 'LINKS_TO' is reserved and cannot be declared in schema",
        some "schema", "relation:LINKS_TO"⟩]
    else []) ++
    validateDocuments data.rawDocuments ++
    validateNoTopLevelRelations data.rawDocuments ++
    validateRelationTargetFormat data.rawDocuments ++
    m ++ validateSingleClassInstancePerFile data.rawDocuments,
    i ++ rl ++
      validateRelationPlacement data.instances.relations
        (buildInstanceIndex data.instances.classes).2 ++ c, ?_⟩
  rw [herr]
  simp [List.append_assoc]

/-- Witness for C2: two instances of different classes sharing `_id = "a"`
from different files; `validate` reports the duplicate, and the report
contains the specification's duplicate-error segment. -/
theorem duplicate_id_globally_unique_witness :
    ∃ pre post,
      (⟨false,
        [⟨"error",
          "Duplicate _id 'a' detected; IDs must be globally unique (already defined in f1.yml)",
          some "f2.yml", "Team:a"⟩,
         ⟨"error", "Class 'Person' not defined in schema", some "f1.yml", "Person:a"⟩,
         ⟨"error", "Class 'Team' not defined in schema", some "f2.yml", "Team:a"⟩],
        [], ⟨2, 0⟩⟩ : ValidationResult).errors =
        pre ++
          specDupIdErrors
            [⟨some "Person", some "a", none, some "f1.yml", ["_class", "_id", "_source"], none⟩,
             ⟨some "Team", some "a", none, some "f2.yml", ["_class", "_id", "_source"], none⟩] ++
          post :=
  duplicate_id_globally_unique.2.2 (fun _ => false)
    ⟨⟨[], [], []⟩,
      ⟨[⟨some "Person", some "a", none, some "f1.yml", ["_class", "_id", "_source"], none⟩,
        ⟨some "Team", some "a", none, some "f2.yml", ["_class", "_id", "_source"], none⟩], []⟩,
      []⟩
    ⟨false,
      [⟨"error",
        "Duplicate _id 'a' detected; IDs must be globally unique (already defined in f1.yml)",
        some "f2.yml", "Team:a"⟩,
       ⟨"error", "Class 'Person' not defined in schema", some "f1.yml", "Person:a"⟩,
       ⟨"error", "Class 'Team' not defined in schema", some "f2.yml", "Team:a"⟩],
      [], ⟨2, 0⟩⟩
    (by rfl)

/-- A monadic fold whose every step returns its accumulator unchanged
returns the initial accumulator. -/
theorem except_foldlM_id {ε α γ : Type} (step : γ → α → Except ε γ)
    (l : List α) (h : ∀ a ∈ l, ∀ acc, step acc a = Except.ok acc) :
    ∀ acc, l.foldlM step acc = Except.ok acc := by
  induction l with
  | nil => intro acc; rfl
  | cons a l ih =>
    intro acc
    rw [List.foldlM_cons, h a (List.mem_cons_self a l), except_ok_bind]
    exact ih (fun b hb acc2 => h b (List.mem_cons_of_mem a hb) acc2) acc

/-- The round-trip conditions of C5 for the properties of one component
block, as the claim words them: every property definition is non-null;
every required property is present (and non-null); every present value
passes the type check and, for `ref`/`ref[]` types, the ref-integrity
checks; and every property of the block is declared on the component. -/
def claimPropOK (dp : String → Bool)
    (instancesById : List (String × ClassInstance)) (source instanceId localName : String)
    (vals : List (String × Value)) (pp : String × Option PropDef) : Bool :=
  match pp.2 with
  | none => false
  | some pd =>
    (if pd.required then
      (match jsGet vals pp.1 with
       | some .vnull => false
       | some _ => true
       | none => false)
     else true) &&
    (match jsGet vals pp.1 with
     | none => true
     | some .vnull => true
     | some v =>
       match pd.type with
       | none => true
       | some ty =>
         if ty = "" then true
         else
           (validateType dp v ty).isNone &&
           (if ty = "ref" ∨ ty = "ref[]" then
             (checkRefValues localName pp.1 (ty = "ref[]")
               (allowedTypesFilter pd.allowedTypes) instancesById source instanceId
               (if ty = "ref[]" then
                 (match v with
                  | .varr l2 => l2
                  | _ => [])
                else [v])).isEmpty
            else true))

/-- The round-trip conditions of C5 for the properties of one component
block: every definition is well formed as in `claimPropOK` and every
property of the block is declared on the component. -/
def claimWellFormedProps (dp : String → Bool)
    (instancesById : List (String × ClassInstance)) (source instanceId localName : String)
    (properties : List (String × Option PropDef)) (vals : List (String × Value)) : Bool :=
  properties.all (claimPropOK dp instancesById source instanceId localName vals) &&
  vals.all (fun pv => (jsGetTruthy properties pv.1).isSome)

/-- The round-trip conditions of C5 for one component block of an
instance: the block is declared on the class, its component class is
defined, the block itself is non-null, and its properties are well
formed. -/
def claimComponentOK (dp : String → Bool)
    (componentSchemas : List (String × Option ComponentDef))
    (instancesById : List (String × ClassInstance)) (source instanceId : String)
    (classComponents : List (String × Option String))
    (ce : String × Option (List (String × Value))) : Bool :=
  match jsGetTruthyStr classComponents ce.1 with
  | none => false
  | some cname =>
    match jsGetTruthy componentSchemas cname with
    | none => false
    | some cdef =>
      match ce.2 with
      | none => false
      | some vals =>
        claimWellFormedProps dp instancesById source instanceId ce.1
          (cdef.properties.getD []) vals

/-- The round-trip conditions of C5 for one declared component of the
class: either the instance carries the component, or its component class
declares no required property. -/
def claimRequiredOK (componentSchemas : List (String × Option ComponentDef))
    (instanceComponents : List (String × Option (List (String × Value))))
    (le : String × Option String) : Bool :=
  (jsGetTruthy instanceComponents le.1).isSome ||
  (match jsGetTruthy componentSchemas (optStrNull le.2) with
   | none => true
   | some cdef =>
     match cdef.properties with
     | none => true
     | some props =>
       props.all (fun pp =>
         match pp.2 with
         | some pd => !pd.required
         | none => false))

/-- The round-trip conditions of C5 for a whole instance, as the claim
words them: only reserved root keys; every component block non-null,
declared on the class, with its component class defined and its properties
well formed; and every declared-but-absent component class free of
required properties. -/
def claimWellFormedInstance (dp : String → Bool) (inst : ClassInstance)
    (classSchema : Option ClassDef)
    (componentSchemas : List (String × Option ComponentDef))
    (instancesById : List (String × ClassInstance)) : Bool :=
  let source := jsOrDefault inst._source "unknown"
  let instanceId := optStr inst._class ++ ":" ++ optStr inst._id
  let classComponents := (classSchema.bind (fun cs => cs.components)).getD []
  let instanceComponents := inst.components.getD []
  inst.rootKeys.all (fun k => reservedFields.contains k) &&
  instanceComponents.all (claimComponentOK dp componentSchemas instancesById source
    instanceId classComponents) &&
  classComponents.all (claimRequiredOK componentSchemas instanceComponents)

/-- A `filterMap` whose function rejects every element is empty. -/
theorem filterMap_eq_nil_of {α β : Type} (f : α → Option β) (l : List α)
    (h : ∀ a ∈ l, f a = none) : l.filterMap f = [] := by
  induction l with
  | nil => rfl
  | cons a l ih =>
    rw [List.filterMap_cons, h a (List.mem_cons_self a l)]
    exact ih (fun b hb => h b (List.mem_cons_of_mem a hb))

/-- An `isEmpty` list is `[]`. -/
theorem eq_nil_of_isEmpty {α : Type} {l : List α} (h : l.isEmpty = true) : l = [] := by
  cases l with
  | nil => rfl
  | cons a l => simp [List.isEmpty] at h

/-- A well-formed property entry contributes no issue and never throws. -/
theorem propEntryStep_ok (dp : String → Bool) (localName : String)
    (vals : List (String × Value)) (instancesById : List (String × ClassInstance))
    (source instanceId : String) (pe : String × Option PropDef)
    (hc : claimPropOK dp instancesById source instanceId localName vals pe = true) :
    ∀ acc, propEntryStep dp localName (some vals) instancesById source instanceId acc pe =
      Except.ok acc := by
  intro acc
  simp only [claimPropOK] at hc
  cases hpe : pe.2 with
  | none => rw [hpe] at hc; simp at hc
  | some pd =>
    rw [hpe] at hc
    simp only [Bool.and_eq_true] at hc
    obtain ⟨hreq, hval⟩ := hc
    simp only [propEntryStep, hpe]
    cases hv : jsGet vals pe.1 with
    | none =>
      rw [hv] at hreq
      have hrf : pd.required = false := by
        by_cases hb : pd.required
        · rw [hb] at hreq; simp at hreq
        · exact Bool.eq_false_iff.mpr hb
      simp [hv, hrf, pure, Except.pure]
    | some v =>
      cases v with
      | vnull =>
        rw [hv] at hreq
        have hrf : pd.required = false := by
          by_cases hb : pd.required
          · rw [hb] at hreq; simp at hreq
          · exact Bool.eq_false_iff.mpr hb
        simp [hv, hrf, pure, Except.pure]
      | vstr s =>
        rw [hv] at hval
        simp only [] at hval
        cases hty : pd.type with
        | none => simp [hv, hty, pure, Except.pure]
        | some ty =>
          rw [hty] at hval
          simp only [] at hval
          by_cases hz : ty = ""
          · simp [hv, hty, hz, pure, Except.pure]
          · rw [if_neg hz] at hval
            simp only [Bool.and_eq_true] at hval
            obtain ⟨hvt, hrefc⟩ := hval
            have hvt2 := Option.isNone_iff_eq_none.mp hvt
            by_cases hrt : ty = "ref" ∨ ty = "ref[]"
            · rw [if_pos hrt] at hrefc
              have hre := eq_nil_of_isEmpty hrefc
              simp [hv, hty, hz, hvt2, hre, hrt, pure, Except.pure]
            · simp [hv, hty, hz, hvt2, hrt, pure, Except.pure]
      | vbool b =>
        rw [hv] at hval
        simp only [] at hval
        cases hty : pd.type with
        | none => simp [hv, hty, pure, Except.pure]
        | some ty =>
          rw [hty] at hval
          simp only [] at hval
          by_cases hz : ty = ""
          · simp [hv, hty, hz, pure, Except.pure]
          · rw [if_neg hz] at hval
            simp only [Bool.and_eq_true] at hval
            obtain ⟨hvt, hrefc⟩ := hval
            have hvt2 := Option.isNone_iff_eq_none.mp hvt
            by_cases hrt : ty = "ref" ∨ ty = "ref[]"
            · rw [if_pos hrt] at hrefc
              have hre := eq_nil_of_isEmpty hrefc
              simp [hv, hty, hz, hvt2, hre, hrt, pure, Except.pure]
            · simp [hv, hty, hz, hvt2, hrt, pure, Except.pure]
      | vnum n =>
        rw [hv] at hval
        simp only [] at hval
        cases hty : pd.type with
        | none => simp [hv, hty, pure, Except.pure]
        | some ty =>
          rw [hty] at hval
          simp only [] at hval
          by_cases hz : ty = ""
          · simp [hv, hty, hz, pure, Except.pure]
          · rw [if_neg hz] at hval
            simp only [Bool.and_eq_true] at hval
            obtain ⟨hvt, hrefc⟩ := hval
            have hvt2 := Option.isNone_iff_eq_none.mp hvt
            by_cases hrt : ty = "ref" ∨ ty = "ref[]"
            · rw [if_pos hrt] at hrefc
              have hre := eq_nil_of_isEmpty hrefc
              simp [hv, hty, hz, hvt2, hre, hrt, pure, Except.pure]
            · simp [hv, hty, hz, hvt2, hrt, pure, Except.pure]
      | vdate =>
        rw [hv] at hval
        simp only [] at hval
        cases hty : pd.type with
        | none => simp [hv, hty, pure, Except.pure]
        | some ty =>
          rw [hty] at hval
          simp only [] at hval
          by_cases hz : ty = ""
          · simp [hv, hty, hz, pure, Except.pure]
          · rw [if_neg hz] at hval
            simp only [Bool.and_eq_true] at hval
            obtain ⟨hvt, hrefc⟩ := hval
            have hvt2 := Option.isNone_iff_eq_none.mp hvt
            by_cases hrt : ty = "ref" ∨ ty = "ref[]"
            · rw [if_pos hrt] at hrefc
              have hre := eq_nil_of_isEmpty hrefc
              simp [hv, hty, hz, hvt2, hre, hrt, pure, Except.pure]
            · simp [hv, hty, hz, hvt2, hrt, pure, Except.pure]
      | varr l2 =>
        rw [hv] at hval
        simp only [] at hval
        cases hty : pd.type with
        | none => simp [hv, hty, pure, Except.pure]
        | some ty =>
          rw [hty] at hval
          simp only [] at hval
          by_cases hz : ty = ""
          · simp [hv, hty, hz, pure, Except.pure]
          · rw [if_neg hz] at hval
            simp only [Bool.and_eq_true] at hval
            obtain ⟨hvt, hrefc⟩ := hval
            have hvt2 := Option.isNone_iff_eq_none.mp hvt
            by_cases hrt : ty = "ref" ∨ ty = "ref[]"
            · rw [if_pos hrt] at hrefc
              have hre := eq_nil_of_isEmpty hrefc
              simp [hv, hty, hz, hvt2, hre, hrt, pure, Except.pure]
            · simp [hv, hty, hz, hvt2, hrt, pure, Except.pure]
      | vobj =>
        rw [hv] at hval
        simp only [] at hval
        cases hty : pd.type with
        | none => simp [hv, hty, pure, Except.pure]
        | some ty =>
          rw [hty] at hval
          simp only [] at hval
          by_cases hz : ty = ""
          · simp [hv, hty, hz, pure, Except.pure]
          · rw [if_neg hz] at hval
            simp only [Bool.and_eq_true] at hval
            obtain ⟨hvt, hrefc⟩ := hval
            have hvt2 := Option.isNone_iff_eq_none.mp hvt
            by_cases hrt : ty = "ref" ∨ ty = "ref[]"
            · rw [if_pos hrt] at hrefc
              have hre := eq_nil_of_isEmpty hrefc
              simp [hv, hty, hz, hvt2, hre, hrt, pure, Except.pure]
            · simp [hv, hty, hz, hvt2, hrt, pure, Except.pure]

/-- A well-formed component block contributes no issue and never throws. -/
theorem componentEntryStep_ok (dp : String → Bool)
    (classComponents : List (String × Option String))
    (componentSchemas : List (String × Option ComponentDef))
    (instancesById : List (String × ClassInstance)) (instClass : Option String)
    (source instanceId : String) (ce : String × Option (List (String × Value)))
    (hc : claimComponentOK dp componentSchemas instancesById source instanceId
      classComponents ce = true) :
    ∀ acc, componentEntryStep dp classComponents componentSchemas instancesById
      instClass source instanceId acc ce = Except.ok acc := by
  intro acc
  simp only [claimComponentOK] at hc
  cases hs : jsGetTruthyStr classComponents ce.1 with
  | none => rw [hs] at hc; simp at hc
  | some cname =>
    rw [hs] at hc
    simp only [] at hc
    cases hcs : jsGetTruthy componentSchemas cname with
    | none => rw [hcs] at hc; simp at hc
    | some cdef =>
      rw [hcs] at hc
      simp only [] at hc
      cases hce : ce.2 with
      | none => rw [hce] at hc; simp at hc
      | some vals =>
        rw [hce] at hc
        simp only [claimWellFormedProps, Bool.and_eq_true, List.all_eq_true] at hc
        obtain ⟨hprops, hundef⟩ := hc
        have hfold : validateComponentProps dp ce.1 (cdef.properties.getD [])
            (some vals) instancesById source instanceId = Except.ok [] := by
          exact except_foldlM_id _ _ (fun pp hpp =>
            propEntryStep_ok dp ce.1 vals instancesById source instanceId pp
              (hprops pp hpp)) []
        have hud : vals.filterMap (fun pv =>
            if (jsGetTruthy (cdef.properties.getD []) pv.1).isSome then none
            else some (⟨"error",
              "Property '" ++ ce.1 ++ "." ++ pv.1 ++ "' is not defined in component '" ++
                cname ++ "'", some source, instanceId⟩ : Issue)) = [] :=
          filterMap_eq_nil_of _ _ (fun pv hpv => if_pos (hundef pv hpv))
        simp only [componentEntryStep, hs, hcs, hce, validateComponentProps] at hfold ⊢
        rw [hfold]
        simp only [except_ok_bind]
        rw [hud]
        simp [pure, Except.pure]

/-- A declared component that is either present on the instance or free of
required properties contributes no issue and never throws. -/
theorem requiredComponentStep_ok
    (componentSchemas : List (String × Option ComponentDef))
    (instanceComponents : List (String × Option (List (String × Value))))
    (source instanceId : String) (le : String × Option String)
    (hc : claimRequiredOK componentSchemas instanceComponents le = true) :
    ∀ acc, requiredComponentStep componentSchemas instanceComponents source instanceId
      acc le = Except.ok acc := by
  intro acc
  simp only [claimRequiredOK] at hc
  simp only [requiredComponentStep]
  cases hin : (jsGetTruthy instanceComponents le.1).isSome with
  | true => simp [hin, pure, Except.pure]
  | false =>
    rw [hin, Bool.false_or] at hc
    cases hcs : jsGetTruthy componentSchemas (optStrNull le.2) with
    | none => simp [hin, hcs, pure, Except.pure]
    | some cdef =>
      rw [hcs] at hc
      simp only [] at hc
      cases hp : cdef.properties with
      | none => simp [hin, hcs, hp, pure, Except.pure]
      | some props =>
        rw [hp] at hc
        simp only [List.all_eq_true] at hc
        have hfold : props.foldlM hasRequiredStep false = Except.ok false := by
          apply except_foldlM_id
          intro pp hpp acc2
          cases acc2 with
          | true => rfl
          | false =>
            have hcc := hc pp hpp
            cases hpe : pp.2 with
            | none => rw [hpe] at hcc; simp at hcc
            | some pd =>
              rw [hpe] at hcc
              simp only [] at hcc
              have hr : pd.required = false := by simpa using hcc
              simp [hasRequiredStep, hpe, hr, pure, Except.pure]
        simp only [hin, hcs, hp]
        simp only [Bool.false_eq_true, if_false]
        rw [hfold]
        simp only [except_ok_bind]
        simp [pure, Except.pure]

/-- C5: Round-trip.  For every instance carrying only reserved root keys,
whose component blocks are all declared on its class with a defined
component class, whose properties are all declared, correctly typed and
pass ref integrity, with required properties present and no required
component missing, `validateClassInstance` contributes zero errors (and
never throws).  The claim as worded omits the ref-integrity condition;
without it the theorem is false (see
`instance_roundtrip_zero_errors_cex`). -/
theorem instance_roundtrip_zero_errors (dp : String → Bool) (inst : ClassInstance)
    (classSchema : Option ClassDef)
    (componentSchemas : List (String × Option ComponentDef))
    (instancesById : List (String × ClassInstance))
    (h : claimWellFormedInstance dp inst classSchema componentSchemas instancesById
      = true) :
    validateClassInstance dp inst classSchema componentSchemas instancesById =
      Except.ok [] := by
  simp only [claimWellFormedInstance, Bool.and_eq_true, List.all_eq_true] at h
  obtain ⟨⟨hroot, hcomp⟩, hreq⟩ := h
  have hcfold : (inst.components.getD []).foldlM
      (componentEntryStep dp ((classSchema.bind (fun cs => cs.components)).getD [])
        componentSchemas instancesById inst._class (jsOrDefault inst._source "unknown")
        (optStr inst._class ++ ":" ++ optStr inst._id)) [] = Except.ok [] :=
    except_foldlM_id _ _ (fun ce hce =>
      componentEntryStep_ok dp _ componentSchemas instancesById inst._class _ _ ce
        (hcomp ce hce)) []
  have hrfold : ((classSchema.bind (fun cs => cs.components)).getD []).foldlM
      (requiredComponentStep componentSchemas (inst.components.getD [])
        (jsOrDefault inst._source "unknown")
        (optStr inst._class ++ ":" ++ optStr inst._id)) [] = Except.ok [] :=
    except_foldlM_id _ _ (fun le hle =>
      requiredComponentStep_ok componentSchemas _ _ _ le (hreq le hle)) []
  have hrootnil : inst.rootKeys.filterMap (fun k =>
      if reservedFields.contains k then none
      else
        some (⟨"error",
          "Property '" ++ k ++ "' must be defined inside a component, not at instance root level",
          some (jsOrDefault inst._source "unknown"),
          optStr inst._class ++ ":" ++ optStr inst._id⟩ : Issue)) = [] :=
    filterMap_eq_nil_of _ _ (fun k hk => if_pos (hroot k hk))
  simp only [validateClassInstance]
  rw [hcfold]
  simp only [except_ok_bind]
  rw [hrfold]
  simp only [except_ok_bind]
  rw [hrootnil]
  simp [pure, Except.pure]

/-- The schema components of the C5 counterexample: one component class
with a single required `ref` property. -/
def c5ComponentSchemas : List (String × Option ComponentDef) :=
  [("Info", some ⟨some [("boss", some ⟨some "ref", true, none, none⟩)]⟩)]

/-- The class of the C5 counterexample, declaring the `info` component. -/
def c5ClassDef : ClassDef := ⟨some [("info", some "Info")]⟩

/-- The schema classes of the C5 counterexample. -/
def c5Classes : List (String × Option ClassDef) := [("Person", some c5ClassDef)]

/-- The instance of the C5 counterexample: every root key reserved, its one
component declared, its one property declared, required, present and of a
correctly typed `ref` shape — but referencing an id absent from the
index. -/
def c5Inst : ClassInstance :=
  ⟨some "Person", some "p1", none, some "f.yml",
    ["_class", "_id", "_source", "components"],
    some [("info", some [("boss", Value.vstr "ghost:Person")])]⟩

/-- The instance index of the C5 counterexample. -/
def c5Index : List (String × ClassInstance) := [("p1", c5Inst)]

/-- C5, literal reading, refuted: the instance's class exists in the
schema, its root keys are all reserved, its one component is declared on
the class with a defined component class, its one property is declared on
the component, required and present, and its value passes the type check
for `ref` — every condition the claim states — yet `validateClassInstance`
reports one error, because the reference dangles: ref integrity is checked
beyond the type check, and the claim's conditions do not imply it. -/
theorem instance_roundtrip_zero_errors_cex :
    jsGetTruthy c5Classes (optStr c5Inst._class) = some c5ClassDef ∧
    c5Inst.rootKeys.all (fun k => reservedFields.contains k) = true ∧
    jsGetTruthyStr (((some c5ClassDef).bind (fun cs => cs.components)).getD []) "info"
      = some "Info" ∧
    (jsGetTruthy c5ComponentSchemas "Info").isSome = true ∧
    jsGet [("boss", Value.vstr "ghost:Person")] "boss"
      = some (Value.vstr "ghost:Person") ∧
    [("boss", Value.vstr "ghost:Person")].all (fun pv =>
      (jsGetTruthy ((⟨some [("boss", some ⟨some "ref", true, none, none⟩)]⟩ :
        ComponentDef).properties.getD []) pv.1).isSome) = true ∧
    validateType (fun _ => false) (Value.vstr "ghost:Person") "ref" = none ∧
    validateClassInstance (fun _ => false) c5Inst (some c5ClassDef) c5ComponentSchemas
      c5Index =
      Except.ok [⟨"error",
        "Property 'info.boss' references non-existent instance 'ghost:Person'",
        some "f.yml", "Person:p1"⟩] :=
  ⟨rfl, rfl, rfl, rfl, rfl, rfl, rfl, rfl⟩

/-- A well-formed instance for the C5 witness: like `c5Inst` but with its
`ref` pointing at an existing instance of the stated class. -/
def c5wInst : ClassInstance :=
  ⟨some "Person", some "p1", none, some "f.yml",
    ["_class", "_id", "_source", "components"],
    some [("info", some [("boss", Value.vstr "p1:Person")])]⟩

/-- The instance index of the C5 witness. -/
def c5wIndex : List (String × ClassInstance) := [("p1", c5wInst)]

/-- Witness for C5: the round-trip theorem applied to a concrete
well-formed instance validating with zero errors. -/
theorem instance_roundtrip_zero_errors_witness :
    claimWellFormedInstance (fun _ => false) c5wInst (some c5ClassDef)
      c5ComponentSchemas c5wIndex = true ∧
    validateClassInstance (fun _ => false) c5wInst (some c5ClassDef)
      c5ComponentSchemas c5wIndex = Except.ok [] :=
  ⟨rfl, instance_roundtrip_zero_errors _ _ _ _ _ rfl⟩

/-- Split a character list at its LAST colon: the spec's words for parsing
`<id>:<Class>` (a colon found further right wins, so ids may themselves
contain colons). -/
def splitLastColon : List Char → Option (List Char × List Char)
  | [] => none
  | c :: cs =>
    match splitLastColon cs with
    | some pq => some (c :: pq.1, pq.2)
    | none => if c = ':' then some ([], cs) else none

/-- The spec's reading of reference parsing (C6), written from the spec's
words and not from the source: trim, split at the last colon, require the
trimmed id non-empty and the trimmed class part to match
`[A-Za-z][A-Za-z0-9_]*` (which forces it non-empty). -/
def specParseRef (s : String) : Option (String × String) :=
  match splitLastColon (jsTrim s).data with
  | none => none
  | some pq =>
    let id := jsTrim (String.mk pq.1)
    let cls := jsTrim (String.mk pq.2)
    if id ≠ "" ∧ classNameRegex cls then some (id, cls) else none

/-- `splitLastColon` returns `none` exactly on colon-free lists. -/
theorem splitLastColon_none : ∀ l : List Char, splitLastColon l = none → ':' ∉ l := by
  intro l
  induction l with
  | nil => intro _ h; simp at h
  | cons c cs ih =>
    intro h
    simp only [splitLastColon] at h
    cases h2 : splitLastColon cs with
    | some pq => rw [h2] at h; simp at h
    | none =>
      rw [h2] at h
      simp only [] at h
      by_cases hc : c = ':'
      · rw [if_pos hc] at h; simp at h
      · rw [if_neg hc] at h
        intro hm
        cases List.mem_cons.mp hm with
        | inl h3 => exact hc h3.symm
        | inr h3 => exact ih h2 h3

/-- `splitLastColon` decomposes its input at a colon with a colon-free
suffix. -/
theorem splitLastColon_some : ∀ (l p q : List Char), splitLastColon l = some (p, q) →
    l = p ++ ':' :: q ∧ ':' ∉ q := by
  intro l
  induction l with
  | nil => intro p q h; simp [splitLastColon] at h
  | cons c cs ih =>
    intro p q h
    simp only [splitLastColon] at h
    cases h2 : splitLastColon cs with
    | some pq =>
      rw [h2] at h
      simp only [Option.some.injEq] at h
      obtain ⟨hd, hnm⟩ := ih pq.1 pq.2 (by rw [h2])
      injection h with h1 hq1
      subst h1
      subst hq1
      refine ⟨?_, hnm⟩
      rw [hd]
      rfl
    | none =>
      rw [h2] at h
      simp only [] at h
      by_cases hc : c = ':'
      · rw [if_pos hc] at h
        simp only [Option.some.injEq] at h
        injection h with h1 hq1
        subst h1
        subst hq1
        subst hc
        exact ⟨rfl, splitLastColon_none cs h2⟩
      · rw [if_neg hc] at h; simp at h

/-- `indexOf` finds the first colon after a colon-free prefix. -/
theorem indexOf_colon_append : ∀ (a b : List Char), ':' ∉ a →
    (a ++ ':' :: b).indexOf ':' = a.length := by
  intro a b
  induction a with
  | nil => intro _; simp [List.indexOf_cons_self]
  | cons c a2 ih =>
    intro h
    have hc : ¬ (c = ':') := fun hcc => h (hcc ▸ List.mem_cons_self c a2)
    have h2 : ':' ∉ a2 := fun hm => h (List.mem_cons_of_mem c hm)
    simp only [List.cons_append]
    rw [List.indexOf_cons_ne _ hc, ih h2]
    rfl

/-- `indexOf` misses in a colon-free list. -/
theorem indexOf_colon_not_mem : ∀ l : List Char, ':' ∉ l → l.indexOf ':' = l.length := by
  intro l
  induction l with
  | nil => intro _; rfl
  | cons c l2 ih =>
    intro h
    have hc : ¬ (c = ':') := fun hcc => h (hcc ▸ List.mem_cons_self c l2)
    have h2 : ':' ∉ l2 := fun hm => h (List.mem_cons_of_mem c hm)
    rw [List.indexOf_cons_ne _ hc, ih h2]
    rfl

/-- A colon-free string has no last colon. -/
theorem lastIndexOfColon_not_mem (s : String) (h : ':' ∉ s.data) :
    lastIndexOfColon s = -1 := by
  have hr : ':' ∉ s.data.reverse := fun hm => h (List.mem_reverse.mp hm)
  simp only [lastIndexOfColon]
  rw [indexOf_colon_not_mem _ hr, List.length_reverse, if_pos rfl]

/-- The last colon of `p ++ ':' :: q` with `q` colon-free sits at `p.length`. -/
theorem lastIndexOfColon_split (s : String) (p q : List Char)
    (hd : s.data = p ++ ':' :: q) (h : ':' ∉ q) :
    lastIndexOfColon s = (p.length : Int) := by
  have hrev : s.data.reverse = q.reverse ++ ':' :: p.reverse := by
    rw [hd]; simp
  have hq : ':' ∉ q.reverse := fun hm => h (List.mem_reverse.mp hm)
  have hidx : s.data.reverse.indexOf ':' = q.length := by
    rw [hrev, indexOf_colon_append _ _ hq, List.length_reverse]
  have hlen : s.data.length = p.length + 1 + q.length := by
    rw [hd]; simp; omega
  simp only [lastIndexOfColon, hidx, hlen]
  rw [if_neg (by omega)]
  push_cast
  omega

/-- `parseTypedReference` on a string agrees with the spec's reading:
success exactly on a last-colon split whose trimmed id is non-empty and
whose trimmed class part matches the class-name pattern, returning that id
and class. -/
theorem parseRef_spec_equiv (s id cls : String) :
    parseTypedReference (Value.vstr s) = RefParse.ok id cls ↔
      specParseRef s = some (id, cls) := by
  simp only [parseTypedReference, specParseRef]
  cases hsp : splitLastColon (jsTrim s).data with
  | none =>
    have hnm := splitLastColon_none _ hsp
    by_cases ht : jsTrim s = ""
    · rw [if_pos ht]
      simp
    · rw [if_neg ht]
      have hml : lastIndexOfColon (jsTrim s) = -1 := lastIndexOfColon_not_mem _ hnm
      rw [hml]
      rw [if_pos (Or.inl (by omega))]
      simp
  | some pq =>
    obtain ⟨p, q⟩ := pq
    obtain ⟨hd, hq⟩ := splitLastColon_some _ _ _ hsp
    have ht : ¬ (jsTrim s = "") := by
      intro h0
      have hse : ("" : String).data = ([] : List Char) := rfl
      rw [h0, hse] at hd
      simp at hd
    rw [if_neg ht]
    have hml := lastIndexOfColon_split (jsTrim s) p q hd hq
    rw [hml]
    by_cases hp : p = []
    · subst hp
      rw [if_pos (Or.inl (by simp))]
      have hid0 : jsTrim (String.mk ([] : List Char)) = "" := rfl
      simp [hid0]
    · by_cases hq0 : q = []
      · subst hq0
        have hlen : (jsTrim s).data.length = p.length + 1 := by
          rw [hd]
          simp
        rw [if_pos (Or.inr (by rw [hlen]; push_cast; omega))]
        have hcr : classNameRegex (jsTrim (String.mk ([] : List Char))) = false := rfl
        simp [hcr]
      · have hp1 : 0 < p.length := List.length_pos.mpr hp
        have hq1 : 0 < q.length := List.length_pos.mpr hq0
        have hlen : (jsTrim s).data.length = p.length + 1 + q.length := by
          rw [hd]
          simp [List.length_append, List.length_cons]
          omega
        have hneg : ¬((p.length : Int) ≤ 0 ∨
            (p.length : Int) = ((jsTrim s).data.length : Int) - 1) := by
          rw [hlen]
          push_cast
          omega
        rw [if_neg hneg]
        have htoNat : ((p.length : Int)).toNat = p.length := Int.toNat_natCast p.length
        have htake : (jsTrim s).data.take p.length = p := by
          rw [hd]
          exact List.take_left p _
        have hdrop : (jsTrim s).data.drop (p.length + 1) = q := by
          rw [hd]
          have h1 : p ++ ':' :: q = (p ++ [':']) ++ q := by simp
          have h2 : p.length + 1 = (p ++ [':']).length := by simp
          rw [h1, h2]
          exact List.drop_left _ _
        rw [htoNat, htake, hdrop]
        by_cases hid : jsTrim (String.mk p) = ""
        · simp [hid]
        · by_cases hcr : classNameRegex (jsTrim (String.mk q)) = true
          · simp [hid, hcr]
          · simp [hid, hcr]

/-- An unparsable reference value yields exactly the invalid-ref error. -/
theorem checkRefValues_err (ln pn : String) (isArr : Bool)
    (ats : Option (List String)) (idx : List (String × ClassInstance))
    (src iid : String) (v : Value) (e : String)
    (h : parseTypedReference v = RefParse.err e) :
    checkRefValues ln pn isArr ats idx src iid [v] =
      [⟨"error",
        "Property '" ++ ln ++ "." ++ pn ++ "'" ++ " has invalid ref value" ++
          (if isArr then " at [" ++ toString (0 : Nat) ++ "]" else "") ++ ": " ++ e,
        some src, iid⟩] := by
  have he : ([v] : List Value).enum = [(0, v)] := rfl
  simp [checkRefValues, he, h]

/-- A parsed reference whose id is absent from the index yields exactly the
non-existent-instance error. -/
theorem checkRefValues_missing (ln pn : String) (isArr : Bool)
    (ats : Option (List String)) (idx : List (String × ClassInstance))
    (src iid : String) (v : Value) (rid rcls : String)
    (h : parseTypedReference v = RefParse.ok rid rcls)
    (h2 : jsGet idx rid = none) :
    checkRefValues ln pn isArr ats idx src iid [v] =
      [⟨"error",
        "Property '" ++ ln ++ "." ++ pn ++ "'" ++ " references non-existent instance '" ++
          rid ++ ":" ++ rcls ++ "'",
        some src, iid⟩] := by
  have he : ([v] : List Value).enum = [(0, v)] := rfl
  simp [checkRefValues, he, h, h2]

/-- A parsed reference to an instance of a different class yields exactly
the type-mismatch error. -/
theorem checkRefValues_mismatch (ln pn : String) (isArr : Bool)
    (ats : Option (List String)) (idx : List (String × ClassInstance))
    (src iid : String) (v : Value) (rid rcls : String) (target : ClassInstance)
    (h : parseTypedReference v = RefParse.ok rid rcls)
    (h2 : jsGet idx rid = some target)
    (h3 : target._class ≠ some rcls) :
    checkRefValues ln pn isArr ats idx src iid [v] =
      [⟨"error",
        "Property '" ++ ln ++ "." ++ pn ++ "'" ++ " reference type mismatch for '" ++
          rid ++ ":" ++ rcls ++ "' (actual class is '" ++ optStr target._class ++ "')",
        some src, iid⟩] := by
  have he : ([v] : List Value).enum = [(0, v)] := rfl
  simp [checkRefValues, he, h, h2, h3]

/-- A parsed reference to an instance of the stated class yields no error
when `allowedTypes` is unset, and exactly the allowedTypes-violation error
when it is set, non-empty and misses the stated class. -/
theorem checkRefValues_good (ln pn : String) (isArr : Bool)
    (idx : List (String × ClassInstance)) (src iid : String) (v : Value)
    (rid rcls : String) (target : ClassInstance)
    (h : parseTypedReference v = RefParse.ok rid rcls)
    (h2 : jsGet idx rid = some target)
    (h3 : target._class = some rcls) :
    checkRefValues ln pn isArr none idx src iid [v] = [] ∧
    ∀ l : List String, checkRefValues ln pn isArr (some l) idx src iid [v] =
      (if l.length > 0 ∧ ¬ l.contains rcls then
        [⟨"error",
          "Property '" ++ ln ++ "." ++ pn ++ "'" ++ " reference '" ++ rid ++ ":" ++
            rcls ++ "' violates allowedTypes [" ++ String.intercalate ", " l ++ "]",
          some src, iid⟩]
       else []) := by
  have he : ([v] : List Value).enum = [(0, v)] := rfl
  constructor
  · simp [checkRefValues, he, h, h2, h3]
  · intro l
    simp [checkRefValues, he, h, h2, h3]

/-- C6: reference semantics.  A `ref` value parses as `<id>:<Class>` by
splitting at the last colon with both trimmed parts non-empty and the
class part matching `[A-Za-z][A-Za-z0-9_]*` (so ids may contain colons);
a failing parse is a type error, for `ref` and per element for `ref[]`;
on a successful parse the id must exist in the index, the target's actual
class must equal the stated class, and a set non-empty `allowedTypes`
must contain the stated class — each violation producing exactly its
error, and no error otherwise. -/
theorem ref_integrity_semantics :
    (∀ s id cls, parseTypedReference (Value.vstr s) = RefParse.ok id cls ↔
      specParseRef s = some (id, cls)) ∧
    (∀ (dp : String → Bool) (s : String), validateType dp (Value.vstr s) "ref" =
      (match parseTypedReference (Value.vstr s) with
       | RefParse.err e => some e
       | RefParse.ok _ _ => none)) ∧
    (∀ (dp : String → Bool) (s : String),
      validateType dp (Value.varr [Value.vstr s]) "ref[]" =
      (match parseTypedReference (Value.vstr s) with
       | RefParse.err e => some ("element [0]: " ++ e)
       | RefParse.ok _ _ => none)) ∧
    (∀ ln pn isArr ats idx src iid v e, parseTypedReference v = RefParse.err e →
      checkRefValues ln pn isArr ats idx src iid [v] =
        [⟨"error",
          "Property '" ++ ln ++ "." ++ pn ++ "'" ++ " has invalid ref value" ++
            (if isArr then " at [" ++ toString (0 : Nat) ++ "]" else "") ++ ": " ++ e,
          some src, iid⟩]) ∧
    (∀ ln pn isArr ats idx src iid v rid rcls,
      parseTypedReference v = RefParse.ok rid rcls → jsGet idx rid = none →
      checkRefValues ln pn isArr ats idx src iid [v] =
        [⟨"error",
          "Property '" ++ ln ++ "." ++ pn ++ "'" ++
            " references non-existent instance '" ++ rid ++ ":" ++ rcls ++ "'",
          some src, iid⟩]) ∧
    (∀ ln pn isArr ats idx src iid v rid rcls target,
      parseTypedReference v = RefParse.ok rid rcls → jsGet idx rid = some target →
      target._class ≠ some rcls →
      checkRefValues ln pn isArr ats idx src iid [v] =
        [⟨"error",
          "Property '" ++ ln ++ "." ++ pn ++ "'" ++ " reference type mismatch for '" ++
            rid ++ ":" ++ rcls ++ "' (actual class is '" ++ optStr target._class ++ "')",
          some src, iid⟩]) ∧
    (∀ ln pn isArr idx src iid v rid rcls target,
      parseTypedReference v = RefParse.ok rid rcls → jsGet idx rid = some target →
      target._class = some rcls →
      checkRefValues ln pn isArr none idx src iid [v] = [] ∧
      ∀ l : List String, checkRefValues ln pn isArr (some l) idx src iid [v] =
        (if l.length > 0 ∧ ¬ l.contains rcls then
          [⟨"error",
            "Property '" ++ ln ++ "." ++ pn ++ "'" ++ " reference '" ++ rid ++ ":" ++
              rcls ++ "' violates allowedTypes [" ++ String.intercalate ", " l ++ "]",
            some src, iid⟩]
         else [])) := by
  refine ⟨parseRef_spec_equiv, ?_, ?_, ?_, ?_, ?_, ?_⟩
  · intro dp s
    rfl
  · intro dp s
    have h7 : validateType dp (Value.varr [Value.vstr s]) "ref[]" =
        ((match (match parseTypedReference (Value.vstr s) with
            | RefParse.err e => some e
            | RefParse.ok _ _ => none) with
          | some err => (some ("element [0]: " ++ err), 1)
          | none => ((none : Option String), 1)) : Option String × Nat).1 := rfl
    rw [h7]
    cases h : parseTypedReference (Value.vstr s) with
    | err e => rfl
    | ok a b => rfl
  · intro ln pn isArr ats idx src iid v e h
    exact checkRefValues_err ln pn isArr ats idx src iid v e h
  · intro ln pn isArr ats idx src iid v rid rcls h h2
    exact checkRefValues_missing ln pn isArr ats idx src iid v rid rcls h h2
  · intro ln pn isArr ats idx src iid v rid rcls target h h2 h3
    exact checkRefValues_mismatch ln pn isArr ats idx src iid v rid rcls target h h2 h3
  · intro ln pn isArr idx src iid v rid rcls target h h2 h3
    exact checkRefValues_good ln pn isArr idx src iid v rid rcls target h h2 h3

/-- Count an edge under its `(from, relation)` pair, keeping the first
edge's source: the claim's reading of the cardinality grouping. -/
def bumpPair (m : List ((String × String) × CountData)) (k : String × String)
    (src : Option String) : List ((String × String) × CountData) :=
  if (m.find? (fun p => p.1 = k)).isSome then
    m.map (fun p => if p.1 = k then (p.1, ⟨p.2.count + 1, p.2.source⟩) else p)
  else m ++ [(k, ⟨1, src⟩)]

/-- The `(from, relation)` groups of a list of edges, in first-appearance
order, with their counts and first sources. -/
def groupPairs (relations : List RelationInstance) :
    List ((String × String) × CountData) :=
  relations.foldl (fun m rel => bumpPair m (rel._from, rel._relation) rel._source) []

/-- The cardinality errors as the claim words them (C1): for every
declared relation type whose parsed maximum is a number, one error per
`(from, relation)` group of edges of that type whose count exceeds the
maximum; `many` maxima and minimums are never enforced. -/
def specCardinalityErrors (relations : List RelationInstance)
    (relationSchemas : List (String × Option RelationDef)) : List Issue :=
  relationSchemas.flatMap (fun re =>
    match re.2 with
    | none => []
    | some relSchema =>
      match (parseCardinality relSchema.cardinality).maxv with
      | .num mx =>
        (groupPairs relations).filterMap (fun g =>
          if g.1.2 = re.1 ∧ (g.2.count : Int) > mx then
            some ⟨"error",
              "Cardinality violation: '" ++ g.1.1 ++ "' has " ++
                toString g.2.count ++ " '" ++ re.1 ++ "' relations, maximum is " ++
                toString mx,
              g.2.source, g.1.1⟩
          else none)
      | _ => [])

/-- Decompositions of a character list at a colon with colon-free tails
are unique. -/
theorem colon_append_inj : ∀ (a c b d : List Char), ':' ∉ b → ':' ∉ d →
    a ++ ':' :: b = c ++ ':' :: d → a = c ∧ b = d := by
  intro a
  induction a with
  | nil =>
    intro c b d hb hd h
    cases c with
    | nil =>
      simp only [List.nil_append] at h
      injection h with h1 h2
      exact ⟨rfl, h2⟩
    | cons x c2 =>
      simp only [List.nil_append, List.cons_append] at h
      injection h with h1 h2
      exact absurd (h2 ▸ List.mem_append_right c2 (List.mem_cons_self ':' d)) hb
  | cons y a2 ih =>
    intro c b d hb hd h
    cases c with
    | nil =>
      simp only [List.cons_append, List.nil_append] at h
      injection h with h1 h2
      exact absurd (h2 ▸ List.mem_append_right a2 (List.mem_cons_self ':' b)) hd
    | cons x c2 =>
      simp only [List.cons_append] at h
      injection h with h1 h2
      obtain ⟨hac, hbd⟩ := ih c2 b d hb hd h2
      exact ⟨by rw [h1, hac], hbd⟩

/-- The string key `` `${from}:${relation}` `` is injective when relation
names are colon-free. -/
theorem strKey_inj (f r f2 r2 : String) (hr : ':' ∉ r.data) (hr2 : ':' ∉ r2.data)
    (h : f ++ ":" ++ r = f2 ++ ":" ++ r2) : f = f2 ∧ r = r2 := by
  have hcolon : (":" : String).data = [':'] := rfl
  have hd : f.data ++ ':' :: r.data = f2.data ++ ':' :: r2.data := by
    have h2 := congrArg String.data h
    simp only [String.data_append, hcolon, List.append_assoc, List.singleton_append] at h2
    exact h2
  obtain ⟨h1, h2⟩ := colon_append_inj f.data f2.data r.data r2.data hr hr2 hd
  exact ⟨congrArg String.mk h1, congrArg String.mk h2⟩

/-- A key ends in `:R` exactly when its relation part is `R`, for
colon-free relation names. -/
theorem jsEndsWith_key (f r R : String) (hr : ':' ∉ r.data) (hR : ':' ∉ R.data) :
    (jsEndsWith (f ++ ":" ++ r) (":" ++ R) = true) ↔ r = R := by
  have hcolon : (":" : String).data = [':'] := rfl
  have hd1 : (f ++ ":" ++ r).data = f.data ++ ':' :: r.data := by
    simp only [String.data_append, hcolon, List.append_assoc, List.singleton_append]
  have hd2 : ((":" ++ R) : String).data = ':' :: R.data := by
    simp only [String.data_append, hcolon, List.singleton_append]
  simp only [jsEndsWith]
  rw [List.isSuffixOf_iff_suffix, hd1, hd2]
  constructor
  · rintro ⟨t, ht⟩
    obtain ⟨-, h2⟩ := colon_append_inj t f.data R.data r.data hR hr ht
    exact (congrArg String.mk h2).symm
  · rintro rfl
    exact ⟨f.data, rfl⟩

/-- `takeWhile` up to the first colon returns the colon-free prefix. -/
theorem takeWhile_no_colon : ∀ (a b : List Char), ':' ∉ a →
    List.takeWhile (fun c => ¬ (c = ':')) (a ++ ':' :: b) = a := by
  intro a
  induction a with
  | nil =>
    intro b _
    simp [List.takeWhile_cons]
  | cons x a2 ih =>
    intro b h
    have hx : ¬ (x = ':') := fun hc => h (hc ▸ List.mem_cons_self x a2)
    have h2 : ':' ∉ a2 := fun hm => h (List.mem_cons_of_mem x hm)
    rw [List.cons_append, List.takeWhile_cons,
      if_pos (by simp only [decide_eq_true_eq]; exact hx), ih b h2]

/-- `key.split(':')[0]` recovers a colon-free from-id. -/
theorem splitHeadColon_key (f r : String) (hf : ':' ∉ f.data) :
    splitHeadColon (f ++ ":" ++ r) = f := by
  have hcolon : (":" : String).data = [':'] := rfl
  have hd1 : (f ++ ":" ++ r).data = f.data ++ ':' :: r.data := by
    simp only [String.data_append, hcolon, List.append_assoc, List.singleton_append]
  simp only [splitHeadColon]
  rw [hd1, takeWhile_no_colon f.data r.data hf]

/-- A `(from, relation)` group rendered as its string-keyed form. -/
def toKeyed (g : (String × String) × CountData) : String × CountData :=
  (g.1.1 ++ ":" ++ g.1.2, g.2)

/-- String-keyed and pair-keyed lookups agree on colon-free groups. -/
theorem find?_isSome_bridge : ∀ (m : List ((String × String) × CountData)),
    (∀ g ∈ m, ':' ∉ g.1.2.data) → ∀ (f r : String), ':' ∉ r.data →
    ((m.map toKeyed).find? (fun p => p.1 = f ++ ":" ++ r)).isSome =
      (m.find? (fun p => p.1 = (f, r))).isSome := by
  intro m
  induction m with
  | nil => intro _ f r _; rfl
  | cons g m2 ih =>
    intro hm f r hr
    have hg : ':' ∉ g.1.2.data := hm g (List.mem_cons_self g m2)
    have hm2 : ∀ g2 ∈ m2, ':' ∉ g2.1.2.data :=
      fun g2 h2 => hm g2 (List.mem_cons_of_mem g h2)
    simp only [List.map_cons]
    by_cases hpq : g.1 = (f, r)
    · rw [List.find?_cons_of_pos _ (by simp [toKeyed, hpq]),
        List.find?_cons_of_pos _ (by simp [hpq])]
      rfl
    · rw [List.find?_cons_of_neg _ (by
          simp only [toKeyed, decide_eq_true_eq]
          intro hc
          obtain ⟨h1, h2⟩ := strKey_inj g.1.1 g.1.2 f r hg hr hc
          exact hpq (Prod.ext h1 h2)),
        List.find?_cons_of_neg _ (by
          simp only [decide_eq_true_eq]
          exact hpq)]
      exact ih hm2 f r hr

/-- String-keyed and pair-keyed count updates agree on colon-free groups. -/
theorem map_update_bridge : ∀ (m : List ((String × String) × CountData)),
    (∀ g ∈ m, ':' ∉ g.1.2.data) → ∀ (f r : String), ':' ∉ r.data →
    (m.map toKeyed).map (fun p =>
      if p.1 = f ++ ":" ++ r then (p.1, (⟨p.2.count + 1, p.2.source⟩ : CountData)) else p) =
      (m.map (fun p =>
        if p.1 = (f, r) then (p.1, (⟨p.2.count + 1, p.2.source⟩ : CountData)) else p)).map
        toKeyed := by
  intro m
  induction m with
  | nil => intro _ f r _; rfl
  | cons g m2 ih =>
    intro hm f r hr
    have hg : ':' ∉ g.1.2.data := hm g (List.mem_cons_self g m2)
    have hm2 : ∀ g2 ∈ m2, ':' ∉ g2.1.2.data :=
      fun g2 h2 => hm g2 (List.mem_cons_of_mem g h2)
    simp only [List.map_cons]
    congr 1
    · by_cases hpq : g.1 = (f, r)
      · rw [if_pos (by simp [toKeyed, hpq]), if_pos hpq]
        simp [toKeyed]
      · rw [if_neg (by
            simp only [toKeyed]
            intro hc
            obtain ⟨h1, h2⟩ := strKey_inj g.1.1 g.1.2 f r hg hr hc
            exact hpq (Prod.ext h1 h2)),
          if_neg hpq]
    · exact ih hm2 f r hr

/-- `bumpPair` preserves colon-freeness of the stored groups. -/
theorem bumpPair_inv (m : List ((String × String) × CountData))
    (hm : ∀ g ∈ m, ':' ∉ g.1.1.data ∧ ':' ∉ g.1.2.data) (k : String × String)
    (hk : ':' ∉ k.1.data ∧ ':' ∉ k.2.data) (src : Option String) :
    ∀ g ∈ bumpPair m k src, ':' ∉ g.1.1.data ∧ ':' ∉ g.1.2.data := by
  intro g hgm
  simp only [bumpPair] at hgm
  by_cases hf : (m.find? (fun p => p.1 = k)).isSome
  · rw [if_pos hf] at hgm
    obtain ⟨g0, hg0, heq⟩ := List.mem_map.mp hgm
    have h1 : g.1 = g0.1 := by
      rw [← heq]
      by_cases hg0k : g0.1 = k
      · simp [hg0k]
      · simp [hg0k]
    rw [h1]
    exact hm g0 hg0
  · rw [if_neg hf] at hgm
    cases List.mem_append.mp hgm with
    | inl h => exact hm g h
    | inr h =>
      have h2 : g = (k, ⟨1, src⟩) := by simpa using h
      rw [h2]
      exact hk

/-- The pair-grouping fold preserves colon-freeness. -/
theorem foldl_bumpPair_inv : ∀ (rels : List RelationInstance)
    (m : List ((String × String) × CountData)),
    (∀ g ∈ m, ':' ∉ g.1.1.data ∧ ':' ∉ g.1.2.data) →
    (∀ x ∈ rels, ':' ∉ x._from.data ∧ ':' ∉ x._relation.data) →
    ∀ g ∈ rels.foldl (fun mm rel => bumpPair mm (rel._from, rel._relation) rel._source) m,
      ':' ∉ g.1.1.data ∧ ':' ∉ g.1.2.data := by
  intro rels
  induction rels with
  | nil => intro m hm _; exact hm
  | cons rel rels2 ih =>
    intro m hm hrels
    have hx := hrels rel (List.mem_cons_self rel rels2)
    simp only [List.foldl_cons]
    exact ih (bumpPair m (rel._from, rel._relation) rel._source)
      (bumpPair_inv m hm (rel._from, rel._relation) hx rel._source)
      (fun x h2 => hrels x (List.mem_cons_of_mem rel h2))

/-- The string-keyed grouping fold of `validateCardinality` is the
pair-grouping fold in keyed form, for colon-free edges. -/
theorem fold_bridge : ∀ (rels : List RelationInstance)
    (m : List ((String × String) × CountData)),
    (∀ g ∈ m, ':' ∉ g.1.1.data ∧ ':' ∉ g.1.2.data) →
    (∀ x ∈ rels, ':' ∉ x._from.data ∧ ':' ∉ x._relation.data) →
    rels.foldl (fun mm rel => bumpKey mm (rel._from ++ ":" ++ rel._relation) rel._source)
        (m.map toKeyed) =
      (rels.foldl (fun mm rel => bumpPair mm (rel._from, rel._relation) rel._source)
        m).map toKeyed := by
  intro rels
  induction rels with
  | nil => intro m _ _; rfl
  | cons rel rels2 ih =>
    intro m hm hrels
    have hx := hrels rel (List.mem_cons_self rel rels2)
    simp only [List.foldl_cons]
    have hstep : bumpKey (m.map toKeyed) (rel._from ++ ":" ++ rel._relation) rel._source =
        (bumpPair m (rel._from, rel._relation) rel._source).map toKeyed := by
      simp only [bumpKey, bumpPair]
      rw [find?_isSome_bridge m (fun g hg => (hm g hg).2) rel._from rel._relation hx.2]
      by_cases hf : (m.find? (fun p => p.1 = (rel._from, rel._relation))).isSome
      · rw [if_pos hf, if_pos hf]
        exact map_update_bridge m (fun g hg => (hm g hg).2) rel._from rel._relation hx.2
      · rw [if_neg hf, if_neg hf]
        simp [toKeyed]
    rw [hstep]
    exact ih (bumpPair m (rel._from, rel._relation) rel._source)
      (bumpPair_inv m hm (rel._from, rel._relation) hx rel._source)
      (fun x h2 => hrels x (List.mem_cons_of_mem rel h2))

/-- `filterMap` over a mapped list, by pointwise agreement on members. -/
theorem filterMap_map_congr_mem {α β γ : Type} (f : α → β) (p : β → Option γ)
    (q : α → Option γ) : ∀ (l : List α), (∀ a ∈ l, p (f a) = q a) →
    (l.map f).filterMap p = l.filterMap q := by
  intro l
  induction l with
  | nil => intro _; rfl
  | cons a l2 ih =>
    intro h
    simp only [List.map_cons, List.filterMap_cons, h a (List.mem_cons_self a l2),
      ih (fun b hb => h b (List.mem_cons_of_mem a hb))]

/-- `flatMap` congruence on members. -/
theorem flatMap_congr_mem {α β : Type} (f g : α → List β) : ∀ (l : List α),
    (∀ a ∈ l, f a = g a) → l.flatMap f = l.flatMap g := by
  intro l
  induction l with
  | nil => intro _; rfl
  | cons a l2 ih =>
    intro h
    simp only [List.flatMap_cons, h a (List.mem_cons_self a l2),
      ih (fun b hb => h b (List.mem_cons_of_mem a hb))]

/-- A constant-empty `flatMap` is empty. -/
theorem flatMap_const_nil {α β : Type} : ∀ l : List α,
    l.flatMap (fun _ => ([] : List β)) = [] := by
  intro l
  induction l with
  | nil => rfl
  | cons a l2 ih => simp only [List.flatMap_cons, List.nil_append]; exact ih

/-- An except-fold whose steps append fixed segments returns their
concatenation. -/
theorem except_foldlM_seg {ε α β : Type} (step : List β → α → Except ε (List β))
    (seg : α → List β) : ∀ (l : List α),
    (∀ a ∈ l, ∀ acc, step acc a = Except.ok (acc ++ seg a)) →
    ∀ acc, l.foldlM step acc = Except.ok (acc ++ l.flatMap seg) := by
  intro l
  induction l with
  | nil => intro _ acc; simp [List.foldlM, pure, Except.pure]
  | cons a l2 ih =>
    intro h acc
    rw [List.foldlM_cons, h a (List.mem_cons_self a l2), except_ok_bind,
      ih (fun b hb => h b (List.mem_cons_of_mem a hb)) (acc ++ seg a)]
    simp [List.append_assoc]

/-- `specCardinalityErrors` of no edges is empty: the absence of edges is
never an error. -/
theorem specCardinalityErrors_nil (relationSchemas : List (String × Option RelationDef)) :
    specCardinalityErrors [] relationSchemas = [] := by
  simp only [specCardinalityErrors]
  rw [flatMap_congr_mem _ (fun _ => ([] : List Issue)) relationSchemas ?_,
    flatMap_const_nil]
  intro re _
  cases re.2 with
  | none => rfl
  | some relSchema =>
    simp only []
    cases hmx : (parseCardinality relSchema.cardinality).maxv with
    | num mx => rfl
    | many => rfl
    | other => rfl

/-- C1: cardinality maxima, amended.  When every edge's from-id and
relation name and every declared relation name is colon-free (and no
relation definition is null), `validateCardinality` reports exactly the
claim's errors: one per `(from, relation)` group whose count exceeds the
declared numeric maximum, none for groups within the maximum or for
`many` maxima, and none at all without edges (minimums are never
enforced).  Without the colon-freeness amendment the claim is false: the
string-keyed grouping conflates colon-carrying names (see
`cardinality_max_from_groups_cex`). -/
theorem cardinality_max_from_groups (relations : List RelationInstance)
    (relationSchemas : List (String × Option RelationDef))
    (instancesById : List (String × ClassInstance))
    (hrel : ∀ r ∈ relations, ':' ∉ r._from.data ∧ ':' ∉ r._relation.data)
    (hsch : ∀ re ∈ relationSchemas, ':' ∉ re.1.data ∧ re.2.isSome = true) :
    validateCardinality relations relationSchemas instancesById =
      Except.ok (specCardinalityErrors relations relationSchemas) ∧
    validateCardinality [] relationSchemas instancesById = Except.ok [] := by
  have key : ∀ (rels : List RelationInstance),
      (∀ r ∈ rels, ':' ∉ r._from.data ∧ ':' ∉ r._relation.data) →
      validateCardinality rels relationSchemas instancesById =
        Except.ok (specCardinalityErrors rels relationSchemas) := by
    intro rels hrels
    have hfc : rels.foldl
        (fun m rel => bumpKey m (rel._from ++ ":" ++ rel._relation) rel._source) [] =
        (groupPairs rels).map toKeyed :=
      fold_bridge rels [] (fun g hg => absurd hg (List.not_mem_nil g)) hrels
    have hinv : ∀ g ∈ groupPairs rels, ':' ∉ g.1.1.data ∧ ':' ∉ g.1.2.data :=
      foldl_bumpPair_inv rels [] (fun g hg => absurd hg (List.not_mem_nil g)) hrels
    simp only [validateCardinality]
    rw [hfc]
    refine Eq.trans (except_foldlM_seg _ (fun re =>
      match re.2 with
      | none => []
      | some relSchema =>
        match (parseCardinality relSchema.cardinality).maxv with
        | .num mx =>
          ((groupPairs rels).map toKeyed).filterMap (fun kd =>
            if jsEndsWith kd.1 (":" ++ re.1) ∧ (kd.2.count : Int) > mx then
              some ⟨"error",
                "Cardinality violation: '" ++ splitHeadColon kd.1 ++ "' has " ++
                  toString kd.2.count ++ " '" ++ re.1 ++ "' relations, maximum is " ++
                  toString mx,
                kd.2.source, splitHeadColon kd.1⟩
            else none)
        | _ => []) relationSchemas ?_ []) ?_
    · intro re hre acc
      obtain ⟨h1, h2⟩ := hsch re hre
      cases hre2 : re.2 with
      | none => rw [hre2] at h2; simp at h2
      | some relSchema =>
        simp only [hre2]
        cases hmx : (parseCardinality relSchema.cardinality).maxv with
        | num mx => simp [hmx, pure, Except.pure]
        | many => simp [hmx, pure, Except.pure]
        | other => simp [hmx, pure, Except.pure]
    · rw [List.nil_append]
      congr 1
      simp only [specCardinalityErrors]
      apply flatMap_congr_mem
      intro re hre
      obtain ⟨h1, _⟩ := hsch re hre
      cases hre2 : re.2 with
      | none => simp only [hre2]
      | some relSchema =>
        simp only [hre2]
        cases hmx : (parseCardinality relSchema.cardinality).maxv with
        | num mx =>
          simp only [hmx]
          apply filterMap_map_congr_mem
          intro g hg
          obtain ⟨hg1, hg2⟩ := hinv g hg
          have hends := jsEndsWith_key g.1.1 g.1.2 re.1 hg2 h1
          have hsh := splitHeadColon_key g.1.1 g.1.2 hg1
          simp only [toKeyed]
          rw [hsh]
          exact if_congr (and_congr hends Iff.rfl) rfl rfl
        | many => simp only [hmx]
        | other => simp only [hmx]
  refine ⟨key relations hrel, ?_⟩
  rw [key [] (fun r hr => absurd hr (List.not_mem_nil r)), specCardinalityErrors_nil]

/-- The two colon-named edges of the C1 counterexample. -/
def c1cexRels : List RelationInstance :=
  [⟨"a", "R:S", "b1", none, some "f.yml", []⟩,
   ⟨"a", "R:S", "b2", none, some "f.yml", []⟩]

/-- The one-`oto`-relation schema of the C1 counterexample. -/
def c1cexSchemas : List (String × Option RelationDef) :=
  [("S", some ⟨none, none, some (CardSpec.code "oto"), none⟩)]

/-- C1, literal reading, refuted: with relation type `S` declared `oto`
and two edges of the unrelated relation `R:S`, no edge of type `S` exists
— so the claim's per-`(from, relation-type)` reading reports no
cardinality error — yet `validateCardinality` reports one, because the
string key `a:R:S` ends in `:S` and is counted against `S`. -/
theorem cardinality_max_from_groups_cex :
    (c1cexRels.countP (fun r => r._relation = "S") = 0) ∧
    specCardinalityErrors c1cexRels c1cexSchemas = [] ∧
    validateCardinality c1cexRels c1cexSchemas [] =
      Except.ok [⟨"error",
        "Cardinality violation: 'a' has 2 'S' relations, maximum is 1",
        some "f.yml", "a"⟩] :=
  ⟨rfl, rfl, rfl⟩

/-- The two colon-free edges of the C1 witness. -/
def c1wRels : List RelationInstance :=
  [⟨"a", "R", "b1", none, some "f.yml", []⟩,
   ⟨"a", "R", "b2", none, some "f.yml", []⟩]

/-- The one-`oto`-relation schema of the C1 witness. -/
def c1wSchemas : List (String × Option RelationDef) :=
  [("R", some ⟨none, none, some (CardSpec.code "oto"), none⟩)]

/-- Witness for C1: the amended theorem applied to an `oto` relation with
two same-from edges, reporting exactly one cardinality error. -/
theorem cardinality_max_from_groups_witness :
    (∀ r ∈ c1wRels, ':' ∉ r._from.data ∧ ':' ∉ r._relation.data) ∧
    validateCardinality c1wRels c1wSchemas [] =
      Except.ok (specCardinalityErrors c1wRels c1wSchemas) ∧
    specCardinalityErrors c1wRels c1wSchemas =
      [⟨"error", "Cardinality violation: 'a' has 2 'R' relations, maximum is 1",
        some "f.yml", "a"⟩] :=
  ⟨by decide,
   (cardinality_max_from_groups c1wRels c1wSchemas [] (by decide) (by decide)).1,
   rfl⟩

end Ontology
